import Mathlib

/-!
Verification of the Titan HTTP action server (server/src): shallow embedding of
the route matcher, the static-response analyzer, the request dispatcher, the
worker runtime (drift protocol), and the FsRead async operation, together with
theorems settling the frozen claims about them.

Modelling conventions:
* Rust String / str and byte buffers (Bytes) that always carry UTF-8 text are
  modelled as Lean String.
* The u32 counters of the worker runtime are modelled as unbounded naturals;
  wrap-around after 2^32 allocations on one worker is out of scope.
* f64 numbers are modelled as rationals. A serde_json::Number is either an
  i64-stored integer or an f64; NaN and infinities cannot enter the modelled
  pipeline (number_to_json rejects them at the only entry point). The exact
  decimal rendering of a non-integral f64 (ryu) is floating-point behaviour no
  claim depends on; float_render is a deterministic stand-in for it.
* HashMap / serde_json::Map are modelled as association lists with
  insert-replaces-existing-key semantics; iteration order of a map only shows
  up in serialized multi-key objects and multi-header lists, which no claim
  inspects beyond single-entry maps.
-/

set_option maxHeartbeats 1000000

namespace Titan

/-! # JSON values (serde_json::Value) -/

/-- A serde_json::Number: an i64-stored integer or an f64 (modelled as ℚ). -/
inductive JNum where
  | int (n : ℤ)
  | float (q : ℚ)
  deriving DecidableEq, Repr

/-- serde_json::Value. Object fields are an insertion-ordered association list. -/
inductive Json where
  | null
  | bool (b : Bool)
  | num (n : JNum)
  | str (s : String)
  | arr (xs : List Json)
  | obj (fields : List (String × Json))
  deriving Repr

/-- Association-list lookup (HashMap / Map get): first entry with the key. -/
def alist_get {α : Type} (m : List (String × α)) (k : String) : Option α :=
  match m with
  | [] => none
  | (k2, v) :: rest => if k2 = k then some v else alist_get rest k

/-- Association-list insert with replace-existing-key semantics (HashMap / Map insert). -/
def alist_insert {α : Type} (m : List (String × α)) (k : String) (v : α) :
    List (String × α) :=
  match m with
  | [] => [(k, v)]
  | (k2, v2) :: rest =>
      if k2 = k then (k, v) :: rest else (k2, v2) :: alist_insert rest k v

/-- Nat-keyed association-list lookup. -/
def nlist_get {α : Type} (m : List (Nat × α)) (k : Nat) : Option α :=
  match m with
  | [] => none
  | (k2, v) :: rest => if k2 = k then some v else nlist_get rest k

/-- Nat-keyed association-list insert with replace-existing-key semantics. -/
def nlist_insert {α : Type} (m : List (Nat × α)) (k : Nat) (v : α) :
    List (Nat × α) :=
  match m with
  | [] => [(k, v)]
  | (k2, v2) :: rest =>
      if k2 = k then (k, v) :: rest else (k2, v2) :: nlist_insert rest k v

/-- Nat-keyed association-list remove (HashMap::remove). -/
def nlist_remove {α : Type} (m : List (Nat × α)) (k : Nat) : List (Nat × α) :=
  m.filter (fun kv => kv.1 ≠ k)

/-! ## Character-level string primitives

The Rust string operations used by the sources are re-implemented over
character lists (structural recursion, so concrete applications reduce).
Case conversions are ASCII; the methods, header names, and route types they
are applied to are ASCII in every modelled input. -/

/-- ASCII char::to_lowercase. -/
def ascii_to_lower (c : Char) : Char :=
  if 65 ≤ c.toNat ∧ c.toNat ≤ 90 then Char.ofNat (c.toNat + 32) else c

/-- ASCII char::to_uppercase. -/
def ascii_to_upper (c : Char) : Char :=
  if 97 ≤ c.toNat ∧ c.toNat ≤ 122 then Char.ofNat (c.toNat - 32) else c

/-- ASCII str::to_lowercase. -/
def lower_str (s : String) : String :=
  String.mk (s.toList.map ascii_to_lower)

/-- ASCII str::to_uppercase. -/
def upper_str (s : String) : String :=
  String.mk (s.toList.map ascii_to_upper)

/-- str::starts_with(char). -/
def starts_with_char (s : String) (c : Char) : Bool :=
  match s.toList with
  | x :: _ => x = c
  | [] => false

/-- The tail of a string (s[1..], used after a checked leading char). -/
def drop_head (s : String) : String :=
  String.mk s.toList.tail

/-- str::split(char) on a character list: always at least one group. -/
def split_char (c : Char) : List Char → List (List Char)
  | [] => [[]]
  | x :: rest =>
      match split_char c rest with
      | [] => [[]]
      | grp :: grps => if x = c then [] :: grp :: grps else (x :: grp) :: grps

/-- str::split_once(char): the parts before and after the first occurrence. -/
def split_first (c : Char) : List Char → Option (List Char × List Char)
  | [] => none
  | x :: rest =>
      if x = c then some ([], rest)
      else
        match split_first c rest with
        | none => none
        | some (pre, post) => some (x :: pre, post)

/-- Strip every leading and trailing occurrence of a character
(str::trim_matches(char)). -/
def trim_char (c : Char) (l : List Char) : List Char :=
  ((l.dropWhile (· = c)).reverse.dropWhile (· = c)).reverse

/-- Does the second list occur as a prefix of the first
(core of str::contains). -/
def list_has_pref : List Char → List Char → Bool
  | _, [] => true
  | [], _ :: _ => false
  | x :: xs, y :: ys => x = y && list_has_pref xs ys

/-- Does pat occur as a contiguous sublist of l (str::contains(substring)). -/
def list_has_sub (l pat : List Char) : Bool :=
  match l with
  | [] => list_has_pref [] pat
  | _ :: rest => list_has_pref l pat || list_has_sub rest pat

/-- serde_json::Value::get(key): only objects have fields. -/
def Json.get (j : Json) (k : String) : Option Json :=
  match j with
  | .obj fields => alist_get fields k
  | _ => none

/-- Value::as_str. -/
def Json.asStr (j : Json) : Option String :=
  match j with
  | .str s => some s
  | _ => none

/-- Value::as_object (the field list). -/
def Json.asObject (j : Json) : Option (List (String × Json)) :=
  match j with
  | .obj fields => some fields
  | _ => none

/-- Number::as_u64: Some exactly for integer-stored values in [0, 2^64). -/
def JNum.asU64 (n : JNum) : Option Nat :=
  match n with
  | .int m => if 0 ≤ m ∧ m < 2 ^ 64 then some m.toNat else none
  | .float _ => none

/-- Value::as_u64. -/
def Json.asU64 (j : Json) : Option Nat :=
  match j with
  | .num n => n.asU64
  | _ => none

/-- Number::as_f64 (always succeeds; i64 → f64 rounding is out of scope). -/
def JNum.asF64 (n : JNum) : ℚ :=
  match n with
  | .int m => (m : ℚ)
  | .float q => q

/-- Stand-in for the ryu rendering of a non-integral or non-i64 f64; no claim
depends on the exact digits, only on the rendering being a fixed function. -/
def float_render (q : ℚ) : String :=
  toString q.num ++ "/" ++ toString q.den

/-- Display of a serde_json::Number (used by format! and template evaluation). -/
def num_to_string (n : JNum) : String :=
  match n with
  | .int m => toString m
  | .float q => float_render q

/-- One hex digit (lower case), for \u escapes. -/
def hex_digit (n : Nat) : String :=
  String.singleton (if n < 10 then Char.ofNat (48 + n) else Char.ofNat (87 + n))

/-- serde_json string escaping of a single character. -/
def escape_char (c : Char) : String :=
  if c = Char.ofNat 34 then "\\\x22"
  else if c = Char.ofNat 92 then "\\\\"
  else if c = Char.ofNat 8 then "\\b"
  else if c = Char.ofNat 9 then "\\t"
  else if c = Char.ofNat 10 then "\\n"
  else if c = Char.ofNat 12 then "\\f"
  else if c = Char.ofNat 13 then "\\r"
  else if c.toNat < 32 then "\\u00" ++ hex_digit (c.toNat / 16) ++ hex_digit (c.toNat % 16)
  else String.singleton c

/-- serde_json rendering of a string literal, quotes included. -/
def escape_string (s : String) : String :=
  "\x22" ++ String.join (s.toList.map escape_char) ++ "\x22"

mutual
/-- serde_json::to_vec on a Value (compact serialization, UTF-8 text). -/
def jserialize : Json → String
  | .null => "null"
  | .bool b => if b then "true" else "false"
  | .num n => num_to_string n
  | .str s => escape_string s
  | .arr xs => "[" ++ jserialize_list xs ++ "]"
  | .obj fields => "\x7b" ++ jserialize_fields fields ++ "\x7d"

def jserialize_list : List Json → String
  | [] => ""
  | [x] => jserialize x
  | x :: rest => jserialize x ++ "," ++ jserialize_list rest

def jserialize_fields : List (String × Json) → String
  | [] => ""
  | [(k, v)] => escape_string k ++ ":" ++ jserialize v
  | (k, v) :: rest => escape_string k ++ ":" ++ jserialize v ++ "," ++ jserialize_fields rest
end

/-! # Route matcher (action_management.rs) -/

/-- Route configuration entry from routes.json (struct RouteVal; the field
named type in the source is called rtype here). -/
structure RouteVal where
  rtype : String
  value : Json
  deriving Repr

/-- struct DynamicRoute. -/
structure DynamicRoute where
  method : String
  pattern : String
  action : String
  deriving DecidableEq, Repr

/-- Rust str::parse::<i64>: optional sign, all digits, value within i64 range. -/
def parseI64 (s : String) : Option Int :=
  let p : Bool × List Char :=
    match s.toList with
    | '+' :: rest => (false, rest)
    | '-' :: rest => (true, rest)
    | rest => (false, rest)
  let neg := p.1
  let digits := p.2
  if digits.isEmpty then none
  else if digits.all Char.isDigit then
    let v : Nat := digits.foldl (fun acc c => acc * 10 + (c.toNat - 48)) 0
    if neg then
      if v ≤ 2 ^ 63 then some (-(v : Int)) else none
    else
      if v < 2 ^ 63 then some (v : Int) else none
  else none

/-- str::trim_matches('/'): strip all leading and trailing slashes. -/
def trim_matches_slash (s : String) : String :=
  String.mk (trim_char '/' s.toList)

/-- path.trim_matches('/').split('/').collect() — the empty string yields [""]. -/
def split_path (s : String) : List String :=
  (split_char '/' (trim_char '/' s.toList)).map String.mk

/-- Strip all trailing '>' characters (str::trim_end_matches('>')). -/
def trim_end_gt (s : String) : String :=
  String.mk ((s.toList.reverse.dropWhile (· = '>')).reverse)

/-- inner.split_once('<').map(|(n,t)| (n, t.trim_end_matches('>'))).unwrap_or((inner, "string")) -/
def parse_placeholder (inner : String) : String × String :=
  match split_first '<' inner.toList with
  | none => (inner, "string")
  | some (n, t) => (String.mk n, trim_end_gt (String.mk t))

/-- The per-segment loop body of match_dynamic_route: walk zipped pattern and
path segments accumulating params; None models matched = false. -/
def match_segments :
    List String → List String → List (String × String) → Option (List (String × String))
  | [], [], params => some params
  | pat :: ps, v :: vs, params =>
      if starts_with_char pat ':' then
        let inner := drop_head pat
        let nt := parse_placeholder inner
        let valid :=
          match nt.2 with
          | "number" => (parseI64 v).isSome
          | "string" => true
          | _ => false
        if valid then match_segments ps vs (alist_insert params nt.1 v) else none
      else if pat = v then match_segments ps vs params else none
  | _, _, _ => none

/-- The route loop of match_dynamic_route. -/
def match_route_list (method : String) (path_segments : List String) :
    List DynamicRoute → Option (String × List (String × String))
  | [] => none
  | route :: rest =>
      if route.method ≠ method then match_route_list method path_segments rest
      else
        let pattern_segments := split_path route.pattern
        if pattern_segments.length ≠ path_segments.length then
          match_route_list method path_segments rest
        else
          match match_segments pattern_segments path_segments [] with
          | some params => some (route.action, params)
          | none => match_route_list method path_segments rest

/-- pub fn match_dynamic_route(method, path, routes). -/
def match_dynamic_route (method path : String) (routes : List DynamicRoute) :
    Option (String × List (String × String)) :=
  match_route_list method (split_path path) routes

/-- Declarative single-segment match used to state the matcher's contract:
a literal segment matches on equality; a placeholder matches according to its
type (number: parses as i64; string: any segment; other: none). -/
def spec_segment_ok (pat v : String) : Bool :=
  if starts_with_char pat ':' then
    match (parse_placeholder (drop_head pat)).2 with
    | "number" => (parseI64 v).isSome
    | "string" => true
    | _ => false
  else pat = v

/-- Declarative route match: equal method, equal segment count, all segments ok. -/
def spec_route_matches (method : String) (path_segments : List String)
    (r : DynamicRoute) : Bool :=
  r.method = method &&
  (split_path r.pattern).length = path_segments.length &&
  ((split_path r.pattern).zip path_segments).all (fun pv => spec_segment_ok pv.1 pv.2)

/-- Declarative bindings: each placeholder binds its name to the path segment. -/
def spec_bindings (patSegs valSegs : List String) : List (String × String) :=
  ((patSegs.zip valSegs).filter (fun pv => starts_with_char pv.1 ':')).foldl
    (fun acc pv => alist_insert acc (parse_placeholder (drop_head pv.1)).1 pv.2) []

/-! # Static-response analyzer (fast_path.rs)

The OXC AST and semantic data are external inputs to the analyzer; they are
modelled by the types below. An identifier reference carries the symbol it
resolves to (None models an unresolved/free reference), standing for
reference.symbol_id() after OXC semantic analysis. -/

/-- oxc PropertyKey, restricted to the kinds property_key_to_string accepts,
with otherKey for everything else. -/
inductive PropKey where
  | staticIdent (s : String)
  | strLit (s : String)
  | numLit (q : ℚ)
  | otherKey
  deriving Repr

/-- Binary operators: eval_static only treats Addition; all others disqualify. -/
inductive BinOp where
  | add
  | otherBin
  deriving DecidableEq, Repr

/-- Unary operators: UnaryNegation (eval_static) and Delete (mutation scan). -/
inductive UnOp where
  | neg
  | deleteOp
  | otherUn
  deriving DecidableEq, Repr

mutual
/-- oxc Expression, restricted to the kinds eval_static / detect_response_method
inspect; otherExpr stands for every other expression kind (all of which
eval_static maps to None). ident carries the reference's resolved symbol. -/
inductive Expr where
  | strLit (s : String)
  | numLit (q : ℚ)
  | boolLit (b : Bool)
  | nullLit
  | objLit (props : List ObjProp)
  | arrLit (elems : List ArrElem)
  | ident (name : String) (sym : Option Nat)
  | template (quasis : List (Option String)) (exprs : List Expr)
  | binary (op : BinOp) (l : Expr) (r : Expr)
  | unary (op : UnOp) (arg : Expr)
  | paren (inner : Expr)
  | staticMember (obj : Expr) (prop : String)
  | computedMember (obj : Expr) (propExpr : Expr)
  | otherExpr
  deriving Repr

/-- oxc ObjectPropertyKind. -/
inductive ObjProp where
  | prop (key : PropKey) (value : Expr)
  | spreadProp
  deriving Repr

/-- oxc ArrayExpressionElement. -/
inductive ArrElem where
  | elision
  | spreadElem
  | exprElem (e : Expr)
  deriving Repr
end

/-- oxc Argument: spread or expression. -/
inductive CallArg where
  | spreadArg
  | exprArg (e : Expr)
  deriving Repr

/-- oxc AssignmentTarget, restricted to the member forms the mutation scan
inspects. -/
inductive AssignTarget where
  | staticMem (obj : Expr) (prop : String)
  | computedMem (obj : Expr) (propExpr : Expr)
  | otherTarget
  deriving Repr

/-- The declaration a symbol resolves to (semantic.nodes().get_node of
scoping.symbol_declaration): a VariableDeclarator with optional initializer,
or any other declaration kind. -/
inductive Decl where
  | varDeclarator (init : Option Expr)
  | otherDecl
  deriving Repr

/-- Per-symbol semantic data: scoping.symbol_is_mutated (is the symbol written
after its declarator's initializer) and its declaration node. -/
structure SymbolInfo where
  mutated : Bool
  decl : Decl
  deriving Repr

/-- One entry of semantic.nodes(): the AST node kinds the analyzer's scans
react to (call expressions, assignments, unary expressions), with otherNode
for all remaining node kinds. -/
inductive ProgNode where
  | callNode (callee : Expr) (args : List CallArg)
  | assignNode (target : AssignTarget)
  | unaryNode (op : UnOp) (arg : Expr)
  | otherNode
  deriving Repr

/-- OXC semantic data for one parsed action source: the symbol table and the
full node list of the AST. -/
structure Semantic where
  symbols : List (Nat × SymbolInfo)
  nodes : List ProgNode

/-- struct StaticResponse (body bytes modelled as their UTF-8 text). -/
structure StaticResponse where
  body : String
  content_type : String
  status : Nat
  extra_headers : List (String × String)
  deriving DecidableEq, Repr

/-- struct ResponseOptions. -/
structure ResponseOptions where
  status : Nat
  headers : List (String × String)
  deriving DecidableEq, Repr

/-- const MAX_EVAL_DEPTH. -/
def MAX_EVAL_DEPTH : Nat := 16

/-- fn is_identifier_for_symbol: the expression is an identifier reference
resolving to the given symbol (the name itself is not compared). -/
def is_identifier_for_symbol (e : Expr) (symbol_id : Nat) : Bool :=
  match e with
  | .ident _ (some s) => s = symbol_id
  | _ => false

/-- fn is_assignment_target_our_symbol. -/
def is_assignment_target_our_symbol (target : AssignTarget) (symbol_id : Nat) : Bool :=
  match target with
  | .staticMem obj _ => is_identifier_for_symbol obj symbol_id
  | .computedMem obj _ => is_identifier_for_symbol obj symbol_id
  | .otherTarget => false

/-- const MUTATING_METHODS. -/
def MUTATING_METHODS : List String :=
  ["push", "pop", "shift", "unshift", "splice",
   "sort", "reverse", "fill", "copyWithin",
   "set", "delete", "clear"]

/-- fn is_object_mutated_in_ast: scan every AST node for a mutating method
call, member assignment, or member delete on the symbol. -/
def is_object_mutated_in_ast (symbol_id : Nat) (sem : Semantic) : Bool :=
  sem.nodes.any (fun node =>
    match node with
    | .callNode callee _ =>
        match callee with
        | .staticMember obj method_name =>
            MUTATING_METHODS.contains method_name &&
            is_identifier_for_symbol obj symbol_id
        | _ => false
    | .assignNode target => is_assignment_target_our_symbol target symbol_id
    | .unaryNode op arg =>
        if op = .deleteOp then
          match arg with
          | .staticMember obj _ => is_identifier_for_symbol obj symbol_id
          | .computedMember obj _ => is_identifier_for_symbol obj symbol_id
          | _ => false
        else false
    | .otherNode => false)

/-- fn property_key_to_string. A NumericLiteral key renders by f64 Display,
which agrees with integer Display on the integral values any claim touches. -/
def property_key_to_string (key : PropKey) : Option String :=
  match key with
  | .staticIdent s => some s
  | .strLit s => some s
  | .numLit q => some (if q.den = 1 then toString q.num else float_render q)
  | .otherKey => none

/-- fn number_to_json: integral f64 within i64 range becomes an i64-stored
integer, otherwise an f64. NaN/Infinity cannot arise from rational arithmetic,
so the is_nan/is_infinite rejection has no rational counterpart; float
rounding at the exact i64 boundary is out of scope. -/
def number_to_json (q : ℚ) : Option Json :=
  if q.den = 1 ∧ -(2 ^ 63) ≤ q.num ∧ q.num < 2 ^ 63 then some (.num (.int q.num))
  else some (.num (.float q))

/-- JS-template rendering of an evaluated interpolation (the match inside the
template-literal arm of eval_static): string/number/bool/null convert,
arrays and objects disqualify. -/
def template_piece (v : Json) : Option String :=
  match v with
  | .str s => some s
  | .num n => some (num_to_string n)
  | .bool b => some (if b then "true" else "false")
  | .null => some "null"
  | _ => none

/-- Strip ParenthesizedExpression wrappers. eval_static recurses through a
parenthesized expression at the same depth, so evaluating e at depth d equals
evaluating its paren-stripped form at depth d; stripping keeps the fuel
recursion structural. -/
def strip_parens : Expr → Expr
  | .paren inner => strip_parens inner
  | e => e

/-- Property loop of the ObjectExpression arm: keys via property_key_to_string,
values via the evaluator for depth+1, spread properties disqualify, duplicate
keys follow Map::insert. -/
def eval_props (evalNext : Expr → Option Json) :
    List ObjProp → Option (List (String × Json))
  | [] => some []
  | .spreadProp :: _ => none
  | .prop key value :: rest =>
      match property_key_to_string key with
      | none => none
      | some k =>
          match evalNext value with
          | none => none
          | some v =>
              match eval_props evalNext rest with
              | none => none
              | some m => some (alist_insert m k v)

/-- Element loop of the ArrayExpression arm: spreads disqualify, holes become
null, elements evaluate at depth+1. -/
def eval_elems (evalNext : Expr → Option Json) :
    List ArrElem → Option (List Json)
  | [] => some []
  | .spreadElem :: _ => none
  | .elision :: rest => (eval_elems evalNext rest).map (fun v => Json.null :: v)
  | .exprElem e :: rest =>
      match evalNext e with
      | none => none
      | some v => (eval_elems evalNext rest).map (fun vs => v :: vs)

/-- Quasi/expression interleaving loop of the TemplateLiteral arm: a missing
cooked value disqualifies; each interpolation evaluates at depth+1 and renders
via template_piece. -/
def eval_template_parts (evalNext : Expr → Option Json) :
    List (Option String) → List Expr → String → Option String
  | [], _, acc => some acc
  | none :: _, _, _ => none
  | some s :: qs, [], acc => eval_template_parts evalNext qs [] (acc ++ s)
  | some s :: qs, e :: es, acc =>
      match evalNext e with
      | none => none
      | some v =>
          match template_piece v with
          | none => none
          | some piece => eval_template_parts evalNext qs es (acc ++ s ++ piece)

/-- fn resolve_identifier. The caller (the Identifier arm of eval_static) has
already performed the identical depth check at the same depth, and evalNext is
eval_static at depth+1; symOpt is reference.symbol_id() (None when the
reference did not resolve, e.g. a free/global name). -/
def resolve_identifier (sem : Semantic) (evalNext : Expr → Option Json)
    (symOpt : Option Nat) : Option Json :=
  match symOpt with
  | none => none
  | some symbol_id =>
      match nlist_get sem.symbols symbol_id with
      | none => none
      | some info =>
          if info.mutated then none
          else
            match info.decl with
            | .varDeclarator (some init) =>
                match init with
                | .arrLit _ =>
                    if is_object_mutated_in_ast symbol_id sem then none
                    else evalNext init
                | .objLit _ =>
                    if is_object_mutated_in_ast symbol_id sem then none
                    else evalNext init
                | _ => evalNext init
            | .varDeclarator none => some Json.null
            | .otherDecl => none

/-- fn eval_static(expr, semantic, depth), with fuel = MAX_EVAL_DEPTH + 1 -
depth (the entry guard depth > MAX_EVAL_DEPTH is fuel = 0; every depth+1 call
consumes one unit of fuel; the parenthesized case, which keeps the same depth,
is handled by strip_parens). Top-level calls use fuel MAX_EVAL_DEPTH + 1. -/
def eval_static (sem : Semantic) : Nat → Expr → Option Json
  | 0, _ => none
  | n + 1, e =>
      match strip_parens e with
      | .strLit s => some (.str s)
      | .numLit q => number_to_json q
      | .boolLit b => some (.bool b)
      | .nullLit => some .null
      | .objLit props => (eval_props (eval_static sem n) props).map Json.obj
      | .arrLit elems => (eval_elems (eval_static sem n) elems).map Json.arr
      | .ident _ sym => resolve_identifier sem (eval_static sem n) sym
      | .template quasis exprs =>
          if exprs.isEmpty then
            some (.str (String.join (quasis.filterMap id)))
          else
            (eval_template_parts (eval_static sem n) quasis exprs "").map Json.str
      | .binary op l r =>
          if op ≠ .add then none
          else
            match eval_static sem n l, eval_static sem n r with
            | some (.str a), some (.str b) => some (.str (a ++ b))
            | some (.str a), some (.num m) => some (.str (a ++ num_to_string m))
            | some (.num m), some (.str b) => some (.str (num_to_string m ++ b))
            | some (.num a), some (.num b) => number_to_json (a.asF64 + b.asF64)
            | _, _ => none
      | .unary op arg =>
          if op ≠ .neg then none
          else
            match eval_static sem n arg with
            | some (.num m) => number_to_json (-(m.asF64))
            | _ => none
      | _ => none

/-- fn detect_response_method: the callee must be the static-member chain
t.response.{json|text|html}; only the base identifier's name is inspected. -/
def detect_response_method (callee : Expr) : Option String :=
  match callee with
  | .staticMember outerObj method =>
      if method ≠ "json" ∧ method ≠ "text" ∧ method ≠ "html" then none
      else
        match outerObj with
        | .staticMember innerObj innerProp =>
            if innerProp ≠ "response" then none
            else
              match innerObj with
              | .ident name _ => if name = "t" then some method else none
              | _ => none
        | _ => none
  | _ => none

/-- fn extract_response_options: status taken only when it is an integer in
[100, 599], headers taken from string-valued entries of a headers object. -/
def extract_response_options (val : Json) : ResponseOptions :=
  let opts : ResponseOptions := { status := 200, headers := [] }
  match val.asObject with
  | none => opts
  | some obj =>
      let opts :=
        match alist_get obj "status" with
        | some status =>
            match status.asU64 with
            | some n => if 100 ≤ n ∧ n ≤ 599 then { opts with status := n } else opts
            | none => opts
        | none => opts
      match alist_get obj "headers" with
      | some headers =>
          match headers.asObject with
          | some h_obj =>
              { opts with
                headers := h_obj.foldl (fun acc kv =>
                  match kv.2.asStr with
                  | some v_str => acc ++ [(kv.1, v_str)]
                  | none => acc) [] }
          | none => opts
      | none => opts

/-- fn analyze_response_call: evaluate body (argument 0) and options (argument
1) and push a StaticResponse, or set has_dynamic. The accumulator models the
(responses, has_dynamic) state threaded through the call scan. -/
def analyze_response_call (args : List CallArg) (method : String) (sem : Semantic)
    (acc : List StaticResponse × Bool) : List StaticResponse × Bool :=
  match args.head? with
  | none => acc
  | some .spreadArg => (acc.1, true)
  | some (.exprArg body_expr) =>
      let opts_expr : Option Expr :=
        match args.get? 1 with
        | some (.exprArg e) => some e
        | _ => none
      match eval_static sem (MAX_EVAL_DEPTH + 1) body_expr with
      | none => (acc.1, true)
      | some body_value =>
          let options? : Option ResponseOptions :=
            match opts_expr with
            | some opts =>
                match eval_static sem (MAX_EVAL_DEPTH + 1) opts with
                | some v => some (extract_response_options v)
                | none => none
            | none => some { status := 200, headers := [] }
          match options? with
          | none => (acc.1, true)
          | some options =>
              let sb : Option (String × String) :=
                match method with
                | "json" => some (jserialize body_value, "application/json")
                | "text" =>
                    match body_value.asStr with
                    | some s => some (s, "text/plain")
                    | none => none
                | "html" =>
                    match body_value.asStr with
                    | some s => some (s, "text/html")
                    | none => none
                | _ => none
              match sb with
              | none => (acc.1, true)
              | some (serialized_body, content_type) =>
                  (acc.1 ++ [{ body := serialized_body, content_type,
                               status := options.status,
                               extra_headers := options.headers }], acc.2)

/-- fn unique_response. -/
def unique_response (responses : List StaticResponse) : Option StaticResponse :=
  match responses with
  | [] => none
  | first :: _ =>
      if responses.all (fun r => r = first) then some first else none

/-- fn analyze_action_source, starting from the parsed AST and semantic data
(parsing and semantic construction are the external OXC phases): scan every
call expression, analyze the t.response.* ones, and keep the unique static
response if nothing was dynamic. -/
def analyze_action_source (sem : Semantic) : Option StaticResponse :=
  let scanned := sem.nodes.foldl (fun acc node =>
    match node with
    | .callNode callee args =>
        match detect_response_method callee with
        | some method => analyze_response_call args method sem acc
        | none => acc
    | _ => acc) ([], false)
  if scanned.2 || scanned.1.isEmpty then none
  else unique_response scanned.1

/-! # Request dispatcher (main.rs handler)

The HTTP transport (axum) is external; an HTTP response is modelled as status,
header list, and body text. Wall-clock durations are external inputs: the
formatted Server-Timing value is passed in as an oracle string. The worker
pool execution is likewise an external input to the dispatcher: its outcome
(Ok(json, timings) or Err(message)) is a parameter. -/

/-- An assembled HTTP response. -/
structure HttpResponse where
  status : Nat
  headers : List (String × String)
  body : String
  deriving DecidableEq, Repr

/-- Value::as_bool. -/
def Json.asBool (j : Json) : Option Bool :=
  match j with
  | .bool b => some b
  | _ => none

/-- HeaderMap::insert: drop all existing values for the (case-insensitive)
name and add the new one. -/
def insert_header (r : HttpResponse) (name value : String) : HttpResponse :=
  { r with headers :=
      r.headers.filter (fun kv => lower_str kv.1 ≠ lower_str name) ++ [(name, value)] }

/-- First content-type header of a response (HeaderMap is case-insensitive). -/
def content_type_of (r : HttpResponse) : Option String :=
  (r.headers.find? (fun kv => lower_str kv.1 = "content-type")).map (·.2)

/-- struct PrecomputedRoute. -/
structure PrecomputedRoute where
  body : String
  content_type : String
  deriving DecidableEq, Repr

/-- PrecomputedRoute::from_json. -/
def precomputed_from_json (val : Json) : PrecomputedRoute :=
  { body := jserialize val, content_type := "application/json" }

/-- PrecomputedRoute::from_text. -/
def precomputed_from_text (text : String) : PrecomputedRoute :=
  { body := text, content_type := "text/plain; charset=utf-8" }

/-- PrecomputedRoute::to_axum_response. -/
def precomputed_to_axum_response (p : PrecomputedRoute) : HttpResponse :=
  { status := 200,
    headers := [("content-type", p.content_type), ("server", "TitanPL")],
    body := p.body }

/-- StaticResponse::to_axum_response: status, content-type, server, then the
extra headers except any named content-type or server (case-insensitively). -/
def static_to_axum_response (r : StaticResponse) : HttpResponse :=
  { status := r.status,
    headers := [("content-type", r.content_type), ("server", "TitanPL")] ++
      r.extra_headers.filter (fun kv =>
        kv.1.toLower ≠ "content-type" ∧ kv.1.toLower ≠ "server"),
    body := r.body }

/-- axum Json(value).into_response(). -/
def json_response (v : Json) : HttpResponse :=
  { status := 200, headers := [("content-type", "application/json")],
    body := jserialize v }

/-- axum String::into_response (also used for (StatusCode, &str)). -/
def text_response (status : Nat) (s : String) : HttpResponse :=
  { status, headers := [("content-type", "text/plain; charset=utf-8")], body := s }

/-- StatusCode::from_u16(n).unwrap_or(StatusCode::OK): the http crate accepts
100..=999. -/
def status_from_u16_or_ok (n : Nat) : Nat :=
  if 100 ≤ n ∧ n ≤ 999 then n else 200

/-- struct AppState (the dispatcher-relevant, immutable-after-startup part). -/
structure AppState where
  routes : List (String × RouteVal)
  dynamic_routes : List DynamicRoute
  fast_paths : List (String × StaticResponse)
  precomputed : List (String × PrecomputedRoute)
  production_mode : Bool

/-- Phases 3 and 4 of the handler: build the HTTP response from the worker
result JSON and timings. An error key yields 500 with the JSON (returning
before the Server-Timing block); _isResponse objects are assembled from their
status/headers/redirect/body fields; anything else is serialized as JSON.
timing_value is the formatted Server-Timing string (wall clock is external). -/
def build_worker_response (production_mode : Bool) (timing_value : String)
    (result_json : Json) (timings : List (String × ℚ)) : HttpResponse :=
  if (result_json.get "error").isSome then
    { status := 500, headers := [("content-type", "application/json")],
      body := jserialize result_json }
  else
    let response :=
      match (result_json.get "_isResponse").map (fun v => v.asBool.getD false) with
      | some true =>
          let status_u16 := ((result_json.get "status").bind Json.asU64).getD 200 % 65536
          let status := status_from_u16_or_ok status_u16
          let script_headers : List (String × String) :=
            match (result_json.get "headers").bind Json.asObject with
            | some hmap => hmap.foldl (fun acc kv =>
                match kv.2.asStr with
                | some vs => acc ++ [(kv.1, vs)]
                | none => acc) []
            | none => []
          let redirect_url : Option String :=
            (result_json.get "redirect").bind Json.asStr
          match redirect_url with
          | some url =>
              let final_status := if ¬ (300 ≤ status ∧ status < 400) then 302 else status
              { status := status_from_u16_or_ok final_status,
                headers := script_headers ++ [("Location", url)],
                body := "" }
          | none =>
              let body_text :=
                match result_json.get "body" with
                | some (.str s) => s
                | some v => jserialize v
                | none => ""
              { status, headers := script_headers, body := body_text }
      | _ => json_response result_json
    if ¬ production_mode ∧ ¬ timings.isEmpty then
      insert_header response "Server-Timing" timing_value
    else response

/-- Phase 1 of the handler: the fast-path check before any body/header
parsing. Some response short-circuits; none falls through to phase 2. -/
def handler_phase1 (state : AppState) (_method path strict_key : String)
    (timing_value : String) : Option HttpResponse :=
  match alist_get state.routes strict_key |>.orElse (fun _ => alist_get state.routes path) with
  | none => none
  | some route =>
      if route.rtype = "json" ∨ route.rtype = "text" then
        match alist_get state.precomputed strict_key with
        | some pre =>
            let response := precomputed_to_axum_response pre
            if state.production_mode then some response
            else some (insert_header response "Server-Timing" timing_value)
        | none =>
            if route.rtype = "json" then some (json_response route.value)
            else
              match route.value.asStr with
              | some s => some (text_response 200 s)
              | none => none
      else if route.rtype = "action" then
        let action_name := route.value.asStr.getD ""
        match alist_get state.fast_paths action_name with
        | some static_resp =>
            let response := static_to_axum_response static_resp
            if state.production_mode then some response
            else some (insert_header response "Server-Timing" timing_value)
        | none => none
      else
        match route.value.asStr with
        | some s => some (text_response 200 s)
        | none => none

/-- fn handler: phase 1 fast path, phase 2 route resolution, phase 3 worker
dispatch (whose outcome worker_exec is an external input: the value the
dispatcher's runtime.execute(...).await produced), phase 4 response assembly.
The request body always reads successfully here (the 400 branch models a
transport failure outside the claims). -/
def handler (state : AppState) (raw_method path : String)
    (worker_exec : Except String (Json × List (String × ℚ)))
    (timing_value : String) : HttpResponse :=
  let method := upper_str raw_method
  let strict_key := method ++ ":" ++ path
  match handler_phase1 state method path strict_key timing_value with
  | some response => response
  | none =>
      let exact := alist_get state.routes strict_key |>.orElse
        (fun _ => alist_get state.routes path)
      let step2 : Except HttpResponse (Option String) :=
        match exact with
        | some route =>
            if route.rtype = "action" then
              .ok (some (route.value.asStr.getD "unknown"))
            else if route.rtype = "json" then .error (json_response route.value)
            else
              match route.value.asStr with
              | some s => .error (text_response 200 s)
              | none => .ok none
        | none => .ok none
      match step2 with
      | .error response => response
      | .ok exact_action =>
          let resolved : Option String :=
            match exact_action with
            | some a => some a
            | none =>
                (match_dynamic_route method path state.dynamic_routes).map (·.1)
          match resolved with
          | none => text_response 404 "Not Found"
          | some _ =>
              let result :=
                match worker_exec with
                | .ok r => r
                | .error e => (Json.obj [("error", Json.str e)], [])
              build_worker_response state.production_mode timing_value
                result.1 result.2

/-! # FsRead (extensions/builtin.rs run_async_operation)

The filesystem is external: canonicalization, the component-wise
Path::starts_with test, and reading are supplied by an oracle. The boolean in
the result records whether the filesystem read was invoked. -/

/-- The external filesystem behaviour FsRead interacts with. -/
structure FsOracle where
  canonicalize : String → Option String
  path_starts_with : String → String → Bool
  read_to_string : String → Except String String

/-- Path::join for the project root (absolute-path replacement semantics of
Path::join are subsumed by the canonicalize oracle, which receives the joined
path). -/
def path_join (root p : String) : String :=
  root ++ "/" ++ p

/-- The FsRead arm of run_async_operation: canonicalize root.join(path),
require the result to start with the canonicalized root (the root itself if
its canonicalization fails), then read; otherwise deny without reading. -/
def run_async_operation_fs_read (fs : FsOracle) (root path : String) :
    Json × Bool :=
  let target := path_join root path
  let safe :=
    match fs.canonicalize target with
    | some p => fs.path_starts_with p ((fs.canonicalize root).getD root)
    | none => false
  if safe then
    match fs.read_to_string target with
    | .ok c => (Json.obj [("data", Json.str c)], true)
    | .error e => (Json.obj [("error", Json.str e)], true)
  else
    (Json.obj [("error", Json.str "Access denied")], false)

/-! # Worker runtime (runtime.rs, extensions/builtin.rs, extensions/mod.rs)

One worker thread owns one isolate and processes WorkerCommands sequentially.
The V8 action function is opaque to the host; it is modelled as a behaviour:
a deterministic function of the request inputs and the sequence of drift
results observed so far, deciding the next interaction with the host
(a _drift_call, a _finish_request, or an uncaught throw). Determinism between
drift boundaries is exactly the replay contract of the source. Execution is
given fuel; every theorem quantifies over fuel. The run is instrumented by a
trace of events (enqueues to the async executor, cache hits, deliveries). -/

/-- enum TitanAsyncOp. -/
inductive TitanAsyncOp where
  | fetch (url method : String) (body : Option String) (headers : List (String × String))
  | dbQuery (conn query : String) (params : List String)
  | fsRead (path : String)
  | batch (ops : List TitanAsyncOp)
  deriving Repr

/-- What the action does next, given the drift results seen so far. -/
inductive ActionStep where
  | drift (op : TitanAsyncOp)
  | finish (result : Json)
  | throwErr (msg : String)

/-- struct RequestData (the replayable copy of the request inputs). -/
structure RequestData where
  action_name : String
  body : Option String
  method : String
  path : String
  headers : List (String × String)
  params : List (String × String)
  query : List (String × String)

/-- The model of one compiled action function. -/
def ActionBehavior : Type := RequestData → List Json → ActionStep

/-- struct RequestTask (response_tx is external; delivery shows in the trace). -/
structure RequestTask where
  action_name : String
  body : Option String
  method : String
  path : String
  headers : List (String × String)
  params : List (String × String)
  query : List (String × String)

def RequestTask.data (t : RequestTask) : RequestData :=
  { action_name := t.action_name, body := t.body, method := t.method,
    path := t.path, headers := t.headers, params := t.params, query := t.query }

/-- struct TitanRuntime, restricted to the worker-protocol state (the isolate,
contexts, interned keys, and channels are external; actions holds behaviours
in place of v8::Global<v8::Function>; pending_requests keeps the ids whose
oneshot sender is still held). -/
structure TitanRuntime where
  actions : List (String × ActionBehavior)
  pending_requests : List Nat
  drift_counter : Nat
  request_counter : Nat
  request_timings : List (Nat × List (String × ℚ))
  drift_to_request : List (Nat × Nat)
  completed_drifts : List (Nat × Json)
  active_requests : List (Nat × RequestData)
  request_start_counters : List (Nat × Nat)

/-- Trace events of a worker run. -/
inductive WorkerEvent where
  | newRequest (request_id : Nat)
  | replayStart (request_id : Nat) (drift_counter : Nat)
  | driftCached (drift_id : Nat) (result : Json)
  | driftEnqueued (drift_id : Nat) (request_id : Nat) (op : TitanAsyncOp)
  | suspended (request_id : Nat)
  | finished (request_id : Nat) (result : Json)
  | actionError (request_id : Nat) (msg : String)

/-- How one action invocation returned to the worker loop. -/
inductive LoopOutcome where
  | returned
  | threw (msg : String)
  | outOfFuel

/-- Rust str::contains(substring). -/
def contains_substr (s pat : String) : Bool :=
  list_has_sub s.toList pat.toList

/-- The message of the distinguished suspend sentinel exception. -/
def SUSPEND_SENTINEL : String := "__SUSPEND__"

/-- fn native_finish_request: if the request still has a pending sender,
remove it, take its timings, and send the result (the send shows as a
finished event; the _isResponse field-extraction fast path changes only the
host-side representation of the same JSON value, which arrives here already
converted). -/
def native_finish_request (request_id : Nat) (result : Json) (rt : TitanRuntime) :
    TitanRuntime × List WorkerEvent :=
  if request_id ∈ rt.pending_requests then
    ({ rt with
        pending_requests := rt.pending_requests.filter (· ≠ request_id),
        request_timings := nlist_remove rt.request_timings request_id },
     [.finished request_id result])
  else (rt, [])

/-- The allocation step of native_drift_call: increment drift_counter to get
the fresh drift_id and, for a real request id, record drift_to_request. -/
def drift_alloc (req_id : Nat) (rt : TitanRuntime) : TitanRuntime :=
  let rt1 := { rt with drift_counter := rt.drift_counter + 1 }
  if req_id ≠ 0 then
    { rt1 with drift_to_request := nlist_insert rt1.drift_to_request rt1.drift_counter req_id }
  else rt1

/-- The run of one action invocation from entry to return: each ActionStep is
one host call. A drift call increments drift_counter, records
drift_to_request, and either returns the cached result (replay path) or
enqueues an AsyncOpRequest and throws the suspend sentinel (suspend path; the
queue-full fallback of try_send, which returns null without suspending, is
not reachable in this model's unbounded queue). -/
def run_action_loop (sem_beh : List Json → ActionStep) (req_id : Nat) :
    Nat → List Json → TitanRuntime → TitanRuntime × List WorkerEvent × LoopOutcome
  | 0, _, rt => (rt, [], .outOfFuel)
  | fuel + 1, observed, rt =>
      match sem_beh observed with
      | .finish result =>
          let fin := native_finish_request req_id result rt
          (fin.1, fin.2, .returned)
      | .throwErr msg => (rt, [], .threw msg)
      | .drift op =>
          let rt2 := drift_alloc req_id rt
          let drift_id := rt2.drift_counter
          match nlist_get rt2.completed_drifts drift_id with
          | some res =>
              let next := run_action_loop sem_beh req_id fuel (observed ++ [res]) rt2
              (next.1, .driftCached drift_id res :: next.2.1, next.2.2)
          | none =>
              (rt2, [.driftEnqueued drift_id req_id op], .threw SUSPEND_SENTINEL)

/-- fn execute_action_optimized: look up the action, run it, and catch: a
thrown message containing SUSPEND returns silently (the suspension), any
other throw sends an error result; an unknown action sends an error result. -/
def execute_action_optimized (fuel : Nat) (rt : TitanRuntime) (request_id : Nat)
    (action_name : String) (data : RequestData) : TitanRuntime × List WorkerEvent :=
  match alist_get rt.actions action_name with
  | some beh =>
      let run := run_action_loop (beh data) request_id fuel [] rt
      let rt1 := run.1
      let events := run.2.1
      match run.2.2 with
      | .returned => (rt1, events)
      | .outOfFuel => (rt1, events)
      | .threw msg =>
          if contains_substr msg "SUSPEND" then (rt1, events)
          else
            if request_id ∈ rt1.pending_requests then
              ({ rt1 with pending_requests := rt1.pending_requests.filter (· ≠ request_id) },
               events ++ [.actionError request_id msg])
            else (rt1, events)
  | none =>
      if request_id ∈ rt.pending_requests then
        ({ rt with pending_requests := rt.pending_requests.filter (· ≠ request_id) },
         [.actionError request_id ("Action \x27" ++ action_name ++ "\x27 not found")])
      else (rt, [])

/-- fn handle_new_request. -/
def handle_new_request (fuel : Nat) (task : RequestTask) (rt : TitanRuntime) :
    TitanRuntime × List WorkerEvent :=
  let rt := { rt with request_counter := rt.request_counter + 1 }
  let request_id := rt.request_counter
  let rt := { rt with pending_requests := request_id :: rt.pending_requests }
  let rt := { rt with
    request_start_counters := nlist_insert rt.request_start_counters request_id rt.drift_counter }
  let run := execute_action_optimized fuel rt request_id task.action_name task.data
  let rt1 := run.1
  let rt2 :=
    if ¬ (request_id ∈ rt1.pending_requests) then
      { rt1 with request_start_counters := nlist_remove rt1.request_start_counters request_id }
    else
      { rt1 with active_requests := nlist_insert rt1.active_requests request_id task.data }
  (rt2, .newRequest request_id :: run.2)

/-- fn handle_resume. -/
def handle_resume (fuel : Nat) (drift_id : Nat) (result : Json) (duration_ms : ℚ)
    (rt : TitanRuntime) : TitanRuntime × List WorkerEvent :=
  let req_id := (nlist_get rt.drift_to_request drift_id).getD 0
  let timing_type := if (result.get "error").isSome then "drift_error" else "drift"
  let prior := (nlist_get rt.request_timings req_id).getD []
  let rt := { rt with
    request_timings := nlist_insert rt.request_timings req_id
      (prior ++ [(timing_type, duration_ms)]) }
  let rt := { rt with completed_drifts := nlist_insert rt.completed_drifts drift_id result }
  let step : TitanRuntime × List WorkerEvent :=
    match nlist_get rt.active_requests req_id with
    | some req_data =>
        let start_counter := (nlist_get rt.request_start_counters req_id).getD 0
        let rt1 := { rt with drift_counter := start_counter }
        let run := execute_action_optimized fuel rt1 req_id req_data.action_name req_data
        (run.1, WorkerEvent.replayStart req_id start_counter :: run.2)
    | none => (rt, [])
  let rt2 := step.1
  let rt3 :=
    if req_id ≠ 0 ∧ ¬ (req_id ∈ rt2.pending_requests) then
      { rt2 with
        active_requests := nlist_remove rt2.active_requests req_id,
        request_start_counters := nlist_remove rt2.request_start_counters req_id }
    else rt2
  (rt3, step.2)

/-- enum WorkerCommand (a Resume carries the async result and its duration). -/
inductive WorkerCommand where
  | request (task : RequestTask)
  | resume (drift_id : Nat) (result : Json) (duration_ms : ℚ)

/-- The worker loop: process a list of commands in order, concatenating traces. -/
def run_worker (fuel : Nat) : List WorkerCommand → TitanRuntime →
    TitanRuntime × List WorkerEvent
  | [], rt => (rt, [])
  | cmd :: rest, rt =>
      let step :=
        match cmd with
        | .request task => handle_new_request fuel task rt
        | .resume drift_id result duration => handle_resume fuel drift_id result duration rt
      let next := run_worker fuel rest step.1
      (next.1, step.2 ++ next.2)

/-- The newRequest ids recorded in a trace (one per handled Request command). -/
def new_request_ids (evs : List WorkerEvent) : List Nat :=
  evs.filterMap (fun ev =>
    match ev with
    | .newRequest id => some id
    | _ => none)

/-! # Theorems -/

/-! ## C4: match_dynamic_route -/

example : parseI64 "42" = some 42 := rfl
example : parseI64 "-7" = some (-7) := rfl
example : parseI64 "abc" = none := rfl
example : parseI64 "" = none := rfl
example : parseI64 "+5" = some 5 := rfl
example : parseI64 "9223372036854775807" = some 9223372036854775807 := rfl
example : parseI64 "9223372036854775808" = none := rfl
example : parseI64 "-9223372036854775808" = some (-9223372036854775808) := rfl
example : split_path "/" = [""] := rfl
example : split_path "/users/42" = ["users", "42"] := rfl
example : parse_placeholder "id<number>" = ("id", "number") := rfl
example : parse_placeholder "name" = ("name", "string") := rfl

example :
    match_dynamic_route "GET" "/users/42" [⟨"GET", "/users/:id<number>", "get_user"⟩] =
      some ("get_user", [("id", "42")]) := rfl

example :
    match_dynamic_route "GET" "/users/abc" [⟨"GET", "/users/:id<number>", "get_user"⟩] =
      none := rfl

/-- The single-segment loop body agrees with the declarative per-segment
match, and accumulates exactly the placeholder bindings. -/
theorem match_segments_spec (ps : List String) :
    ∀ (vs : List String) (params : List (String × String)), ps.length = vs.length →
    match_segments ps vs params =
      if ((ps.zip vs).all fun pv => spec_segment_ok pv.1 pv.2) then
        some (((ps.zip vs).filter (fun pv => starts_with_char pv.1 ':')).foldl
          (fun acc pv => alist_insert acc (parse_placeholder (drop_head pv.1)).1 pv.2) params)
      else none := by
  induction ps with
  | nil =>
      intro vs params h
      cases vs with
      | nil => simp [match_segments]
      | cons v vs => simp at h
  | cons p ps ih =>
      intro vs params h
      cases vs with
      | nil => simp at h
      | cons v vs =>
          simp only [List.length_cons] at h
          have h2 : ps.length = vs.length := by omega
          simp only [match_segments, List.zip_cons_cons, List.all_cons, List.filter_cons,
            spec_segment_ok]
          cases hp : starts_with_char p ':' with
          | false =>
              simp only [hp, Bool.false_eq_true, if_false]
              by_cases he : p = v
              · simp only [he, if_true, ih vs params h2]
                simp only [spec_segment_ok, decide_True, Bool.true_and]
              · simp [he]
          | true =>
              simp only [hp, if_true]
              cases hv : (match (parse_placeholder (drop_head p)).2 with
                  | "number" => (parseI64 v).isSome
                  | "string" => true
                  | _ => false) with
              | false => simp [hv]
              | true =>
                  simp only [hv, if_true, Bool.true_and, ih vs _ h2, List.foldl_cons]
                  simp only [spec_segment_ok]

/-- C4 (amended): match_dynamic_route returns the first route in declaration
order whose method equals the request method and whose pattern has the same
segment count with every segment matching — literal segments by equality,
number placeholders by i64 parsing, string placeholders (bare or explicit)
matching any segment (also an empty one), other placeholder types matching
nothing — binding each placeholder name to its path segment; None otherwise. -/
theorem C4_match_dynamic_route_first_match (method path : String)
    (routes : List DynamicRoute) :
    match_dynamic_route method path routes =
      (routes.find? (spec_route_matches method (split_path path))).map
        (fun r => (r.action, spec_bindings (split_path r.pattern) (split_path path))) := by
  unfold match_dynamic_route
  induction routes with
  | nil => rfl
  | cons r rest ih =>
      simp only [match_route_list]
      by_cases hm : r.method = method
      · rw [if_neg (by simp [hm])]
        by_cases hl : (split_path r.pattern).length = (split_path path).length
        · rw [if_neg (by simp [hl]), match_segments_spec _ _ _ hl]
          cases hall : ((split_path r.pattern).zip (split_path path)).all
              (fun pv => spec_segment_ok pv.1 pv.2) with
          | false =>
              rw [if_neg (by simp [hall]), ih,
                List.find?_cons_of_neg _ (by simp [spec_route_matches, hall])]
          | true =>
              rw [if_pos (by simp [hall]),
                List.find?_cons_of_pos _ (by simp [spec_route_matches, hm, hl, hall])]
              rfl
        · rw [if_pos (by simp [hl]), ih,
            List.find?_cons_of_neg _ (by simp [spec_route_matches, hl])]
      · rw [if_pos (by simp [hm]), ih,
          List.find?_cons_of_neg _ (by simp [spec_route_matches, hm])]

/-- C4 counterexample: with the single dynamic route GET /:name → a, the
request path / is split into one empty segment, and the string-typed
placeholder matches it — match_dynamic_route returns a match binding name to
the empty string, where the claim (string placeholders match only non-empty
segments) requires no route to match. -/
theorem C4_counterexample_empty_segment_matches :
    match_dynamic_route "GET" "/"
      [{ method := "GET", pattern := "/:name", action := "a" }] =
      some ("a", [("name", "")]) := rfl

/-! ## C5: detect_response_method -/

example :
    detect_response_method
      (.staticMember (.staticMember (.ident "t" none) "response") "text") = some "text" := rfl
example :
    detect_response_method
      (.staticMember (.staticMember (.ident "u" none) "response") "json") = none := rfl
example :
    detect_response_method
      (.staticMember (.staticMember (.ident "t" none) "resp") "json") = none := rfl
example :
    detect_response_method (.staticMember (.ident "t" none) "json") = none := rfl

/-- C5 (amended): a call expression is treated as a response call iff its
callee is the static-member chain t.response.json / t.response.text /
t.response.html whose base is an identifier NAMED t — regardless of what that
identifier resolves to (free or locally declared). -/
theorem C5_detect_response_method_name_only (callee : Expr) (m : String) :
    detect_response_method callee = some m ↔
      ((m = "json" ∨ m = "text" ∨ m = "html") ∧
        ∃ sym : Option Nat,
          callee = .staticMember (.staticMember (.ident "t" sym) "response") m) := by
  constructor
  · intro h
    cases callee with
    | staticMember outerObj method =>
        cases outerObj with
        | staticMember innerObj innerProp =>
            cases innerObj with
            | ident name sym =>
                simp only [detect_response_method] at h
                split_ifs at h with h1 h2 h3
                · cases h
                  refine ⟨?_, sym, ?_⟩
                  · by_contra hc
                    push_neg at hc
                    exact h1 ⟨hc.1, hc.2.1, hc.2.2⟩
                  · have : innerProp = "response" := by
                      by_contra hc
                      exact h2 hc
                    rw [this, h3]
            | _ =>
                simp only [detect_response_method] at h
                split_ifs at h
        | _ =>
            simp only [detect_response_method] at h
            split_ifs at h
    | _ => simp [detect_response_method] at h
  · rintro ⟨hm, sym, rfl⟩
    rcases hm with rfl | rfl | rfl <;> simp [detect_response_method]

/-- C5 witness: the characterization applied at a concrete free-t chain. -/
theorem C5_detect_response_method_name_only_witness :
    detect_response_method
      (.staticMember (.staticMember (.ident "t" none) "response") "json") = some "json" :=
  (C5_detect_response_method_name_only
    (.staticMember (.staticMember (.ident "t" none) "response") "json") "json").mpr
    ⟨Or.inl rfl, none, rfl⟩

/-- C5 counterexample: the same chain whose base identifier named t resolves
to a locally declared symbol (symbol id 0) is still detected as a response
call, though the claim requires it not to be. -/
theorem C5_counterexample_local_t_still_detected :
    detect_response_method
      (.staticMember (.staticMember (.ident "t" (some 0)) "response") "json") =
      some "json" := rfl

/-! ## C6: response status -/

/-- The status field of extract_response_options, as a function of the
status entry alone (the headers processing never changes it). -/
theorem extract_response_options_status (fields : List (String × Json)) :
    (extract_response_options (.obj fields)).status =
      (match (alist_get fields "status").bind Json.asU64 with
        | some n => if 100 ≤ n ∧ n ≤ 599 then n else 200
        | none => 200) := by
  unfold extract_response_options
  simp only [Json.asObject]
  cases hs : alist_get fields "status" with
  | none =>
      simp only [Option.none_bind]
      cases hh : alist_get fields "headers" with
      | none => rfl
      | some headers => cases headers <;> rfl
  | some sv =>
      simp only [Option.some_bind]
      cases hu : sv.asU64 with
      | none =>
          simp only [hu]
          cases hh : alist_get fields "headers" with
          | none => rfl
          | some headers => cases headers <;> rfl
      | some n =>
          simp only [hu]
          by_cases hr : 100 ≤ n ∧ n ≤ 599
          · simp only [if_pos hr]
            cases hh : alist_get fields "headers" with
            | none => rfl
            | some headers => cases headers <;> rfl
          · simp only [if_neg hr]
            cases hh : alist_get fields "headers" with
            | none => rfl
            | some headers => cases headers <;> rfl

/-- C6 (amended): a response call with statically evaluated options registers
a static response whose status is the options' integer status n exactly when
100 ≤ n ≤ 599 and 200 otherwise; a missing status key or absent options
argument also yields 200. -/
theorem C6_response_status_rules :
    (∀ (sem : Semantic) (body_expr opts_expr : Expr) (bv ov : Json)
        (acc : List StaticResponse × Bool),
      eval_static sem (MAX_EVAL_DEPTH + 1) body_expr = some bv →
      eval_static sem (MAX_EVAL_DEPTH + 1) opts_expr = some ov →
      analyze_response_call [.exprArg body_expr, .exprArg opts_expr] "json" sem acc =
        (acc.1 ++ [{ body := jserialize bv, content_type := "application/json",
                     status := (extract_response_options ov).status,
                     extra_headers := (extract_response_options ov).headers }], acc.2)) ∧
    (∀ (fields : List (String × Json)) (n : ℤ),
      alist_get fields "status" = some (.num (.int n)) →
      (extract_response_options (.obj fields)).status =
        if 100 ≤ n ∧ n ≤ 599 then n.toNat else 200) ∧
    (∀ (fields : List (String × Json)),
      alist_get fields "status" = none →
      (extract_response_options (.obj fields)).status = 200) ∧
    (∀ (sem : Semantic) (body_expr : Expr) (bv : Json)
        (acc : List StaticResponse × Bool),
      eval_static sem (MAX_EVAL_DEPTH + 1) body_expr = some bv →
      analyze_response_call [.exprArg body_expr] "json" sem acc =
        (acc.1 ++ [{ body := jserialize bv, content_type := "application/json",
                     status := 200, extra_headers := [] }], acc.2)) := by
  refine ⟨?_, ?_, ?_, ?_⟩
  · intro sem body_expr opts_expr bv ov acc hb ho
    simp [analyze_response_call, hb, ho]
  · intro fields n hs
    rw [extract_response_options_status]
    simp only [hs, Option.some_bind, Json.asU64, JNum.asU64]
    by_cases h64 : (0 : ℤ) ≤ n ∧ n < 2 ^ 64
    · simp only [if_pos h64]
      by_cases hr : 100 ≤ n ∧ n ≤ 599
      · rw [if_pos (by omega), if_pos hr]
      · rw [if_neg (by omega), if_neg hr]
    · simp only [if_neg h64]
      rw [if_neg (by omega)]
  · intro fields hs
    rw [extract_response_options_status]
    simp [hs]
  · intro sem body_expr bv acc hb
    simp [analyze_response_call, hb]

/-- C6 witness: a concrete in-range status is kept as is. -/
theorem C6_response_status_rules_witness :
    (extract_response_options (Json.obj [("status", Json.num (JNum.int 204))])).status = 204 := by
  have h := C6_response_status_rules.2.1 [("status", Json.num (JNum.int 204))] 204 rfl
  simpa using h

/-- C6 counterexample: t.response.json("x", {status: 700}) registers a
static response with status 200, not the claim's clamped 599. -/
theorem C6_counterexample_status_700_not_clamped :
    analyze_action_source
      { symbols := [],
        nodes := [.callNode
          (.staticMember (.staticMember (.ident "t" none) "response") "json")
          [.exprArg (.strLit "x"),
           .exprArg (.objLit [.prop (.staticIdent "status") (.numLit 700)])]] } =
      some { body := "\x22x\x22", content_type := "application/json",
             status := 200, extra_headers := [] } ∧ (200 : Nat) ≠ 599 :=
  ⟨rfl, by decide⟩

/-! ## C7: eval_static on binary + -/

/-- C7 (amended): a binary + of two statically computable operands evaluates
to the numeric sum when both are numbers and to the string concatenation only
in the string/string, string/number, and number/string cases; every other
operand combination — including a string with a boolean or null — is
non-static, and a non-static operand makes the + non-static. -/
theorem C7_eval_static_plus_rules :
    (∀ (sem : Semantic) (fuel : Nat) (l r : Expr) (a b : JNum),
      eval_static sem fuel l = some (.num a) → eval_static sem fuel r = some (.num b) →
      eval_static sem (fuel + 1) (.binary .add l r) = number_to_json (a.asF64 + b.asF64)) ∧
    (∀ (sem : Semantic) (fuel : Nat) (l r : Expr) (a b : String),
      eval_static sem fuel l = some (.str a) → eval_static sem fuel r = some (.str b) →
      eval_static sem (fuel + 1) (.binary .add l r) = some (.str (a ++ b))) ∧
    (∀ (sem : Semantic) (fuel : Nat) (l r : Expr) (a : String) (b : JNum),
      eval_static sem fuel l = some (.str a) → eval_static sem fuel r = some (.num b) →
      eval_static sem (fuel + 1) (.binary .add l r) = some (.str (a ++ num_to_string b))) ∧
    (∀ (sem : Semantic) (fuel : Nat) (l r : Expr) (a : JNum) (b : String),
      eval_static sem fuel l = some (.num a) → eval_static sem fuel r = some (.str b) →
      eval_static sem (fuel + 1) (.binary .add l r) = some (.str (num_to_string a ++ b))) ∧
    (∀ (sem : Semantic) (fuel : Nat) (l r : Expr) (a : String) (b : Bool),
      eval_static sem fuel l = some (.str a) → eval_static sem fuel r = some (.bool b) →
      eval_static sem (fuel + 1) (.binary .add l r) = none) ∧
    (∀ (sem : Semantic) (fuel : Nat) (l r : Expr) (a : String),
      eval_static sem fuel l = some (.str a) → eval_static sem fuel r = some .null →
      eval_static sem (fuel + 1) (.binary .add l r) = none) ∧
    (∀ (sem : Semantic) (fuel : Nat) (l r : Expr),
      eval_static sem fuel l = none →
      eval_static sem (fuel + 1) (.binary .add l r) = none) ∧
    (∀ (sem : Semantic) (fuel : Nat) (l r : Expr) (v : Json),
      eval_static sem fuel l = some v → eval_static sem fuel r = none →
      eval_static sem (fuel + 1) (.binary .add l r) = none) := by
  refine ⟨?_, ?_, ?_, ?_, ?_, ?_, ?_, ?_⟩ <;> intro sem fuel l r
  · intro a b hl hr; simp [eval_static, strip_parens, hl, hr]
  · intro a b hl hr; simp [eval_static, strip_parens, hl, hr]
  · intro a b hl hr; simp [eval_static, strip_parens, hl, hr]
  · intro a b hl hr; simp [eval_static, strip_parens, hl, hr]
  · intro a b hl hr; simp [eval_static, strip_parens, hl, hr]
  · intro a hl hr; simp [eval_static, strip_parens, hl, hr]
  · intro hl; simp [eval_static, strip_parens, hl]
  · intro v hl hr; cases v <;> simp [eval_static, strip_parens, hl, hr]

/-- C7 witness: concrete string/number concatenation through the rules. -/
theorem C7_eval_static_plus_rules_witness :
    eval_static { symbols := [], nodes := [] } 2
      (.binary .add (.strLit "n=") (.numLit 5)) = some (.str "n=5") := by
  have h := C7_eval_static_plus_rules.2.2.1 { symbols := [], nodes := [] } 1
    (.strLit "n=") (.numLit 5) "n=" (.int 5) rfl rfl
  simpa using h

/-- C7 counterexample: "a" + true has both operands statically computable and
one of them is a string, yet eval_static yields None (non-static), where the
claim requires the concatenation "atrue". -/
theorem C7_counterexample_string_plus_bool_not_static :
    eval_static { symbols := [], nodes := [] } (MAX_EVAL_DEPTH + 1)
      (.binary .add (.strLit "a") (.boolLit true)) = none := rfl

/-! ## C10: uninitialized, never-written identifiers -/

/-- C10: an identifier whose symbol is declared by a variable declarator with
no initializer and is never written afterwards evaluates statically to JSON
null; consequently a t.response.json body containing such an identifier still
registers as a static response with null at that position. -/
theorem C10_uninitialized_identifier_is_null :
    (∀ (sem : Semantic) (fuel : Nat) (name : String) (symId : Nat) (info : SymbolInfo),
      nlist_get sem.symbols symId = some info →
      info.mutated = false →
      info.decl = .varDeclarator none →
      eval_static sem (fuel + 1) (.ident name (some symId)) = some .null) ∧
    (analyze_action_source
      { symbols := [(0, { mutated := false, decl := .varDeclarator none })],
        nodes := [.callNode
          (.staticMember (.staticMember (.ident "t" none) "response") "json")
          [.exprArg (.objLit [.prop (.staticIdent "x") (.ident "u" (some 0))])]] } =
      some { body := "\x7b\x22x\x22:null\x7d", content_type := "application/json",
             status := 200, extra_headers := [] }) := by
  constructor
  · intro sem fuel name symId info hlook hmut hdecl
    simp [eval_static, strip_parens, resolve_identifier, hlook, hmut, hdecl]
  · rfl

/-- C10 witness: a concrete symbol table, through the theorem. -/
theorem C10_uninitialized_identifier_is_null_witness :
    eval_static
      { symbols := [(0, { mutated := false, decl := .varDeclarator none })], nodes := [] }
      1 (.ident "u" (some 0)) = some .null :=
  C10_uninitialized_identifier_is_null.1 _ 0 "u" 0 _ rfl rfl rfl

/-! ## C8: FsRead path safety -/

/-- C8: whenever the canonicalization of project_root.join(p) fails or does
not lie under the canonicalized project root, the FsRead operation returns
{"error": "Access denied"} and performs no filesystem read. -/
theorem C8_fs_read_access_denied (fs : FsOracle) (root p cr : String)
    (hroot : fs.canonicalize root = some cr)
    (hbad : ∀ q, fs.canonicalize (path_join root p) = some q →
      fs.path_starts_with q cr = false) :
    run_async_operation_fs_read fs root p =
      (Json.obj [("error", Json.str "Access denied")], false) := by
  unfold run_async_operation_fs_read
  cases hc : fs.canonicalize (path_join root p) with
  | none => simp [hc]
  | some q => simp [hc, hroot, hbad q hc]

/-- C8 witness: a concrete oracle under which the joined path does not
canonicalize. -/
theorem C8_fs_read_access_denied_witness :
    run_async_operation_fs_read
      { canonicalize := fun s => if s = "/proj" then some "/proj" else none,
        path_starts_with := fun a b => a = b,
        read_to_string := fun _ => .ok "secret" }
      "/proj" "../etc/passwd" =
      (Json.obj [("error", Json.str "Access denied")], false) :=
  C8_fs_read_access_denied _ "/proj" "../etc/passwd" "/proj" rfl
    (fun _ hq => nomatch hq)

/-! ## C1: static fast-path responses -/

/-- The content-type of a response whose first header is content-type. -/
theorem content_type_of_cons (st : Nat) (ct bd : String)
    (rest : List (String × String)) :
    content_type_of { status := st, headers := ("content-type", ct) :: rest,
                      body := bd } = some ct := by
  unfold content_type_of
  rw [List.find?_cons_of_pos rest rfl]
  rfl

/-- The content-type of a rendered StaticResponse is its content_type field. -/
theorem content_type_of_static_response (R : StaticResponse) :
    content_type_of (static_to_axum_response R) = some R.content_type :=
  content_type_of_cons _ _ _ _

/-- Inserting a Server-Timing header changes neither body nor content-type. -/
theorem content_type_of_insert_timing (R : StaticResponse) (tv : String) :
    content_type_of (insert_header (static_to_axum_response R) "Server-Timing" tv) =
      some R.content_type :=
  content_type_of_cons _ _ _ _

/-- C1 (amended): a request that resolves to action A through an EXACT route
(the "METHOD:PATH" key or the bare path key) whose action has a registered
static response R is answered with body R.body and content-type
R.content_type; a request that resolves to A only through a dynamic pattern
route is dispatched to the worker pool instead and its response is built from
the worker result, not from R. -/
theorem C1_exact_route_fast_path (state : AppState) (raw_method path : String)
    (worker_exec : Except String (Json × List (String × ℚ))) (timing_value : String)
    (route : RouteVal) (R : StaticResponse)
    (hroute : (alist_get state.routes (upper_str raw_method ++ ":" ++ path)).orElse
        (fun _ => alist_get state.routes path) = some route)
    (htype : route.rtype = "action")
    (hfp : alist_get state.fast_paths (route.value.asStr.getD "") = some R) :
    (handler state raw_method path worker_exec timing_value).body = R.body ∧
    content_type_of (handler state raw_method path worker_exec timing_value) =
      some R.content_type := by
  have h1 : handler_phase1 state (upper_str raw_method) path
      (upper_str raw_method ++ ":" ++ path) timing_value =
      some (if state.production_mode then static_to_axum_response R
            else insert_header (static_to_axum_response R) "Server-Timing" timing_value) := by
    unfold handler_phase1
    rw [hroute]
    simp only [htype]
    rw [if_neg (by simp), if_pos trivial, hfp]
    by_cases hp : state.production_mode <;> simp [hp]
  unfold handler
  simp only [h1]
  by_cases hp : state.production_mode
  · simp only [hp, if_true]
    exact ⟨rfl, content_type_of_static_response R⟩
  · simp only [hp, Bool.false_eq_true, if_false]
    exact ⟨rfl, content_type_of_insert_timing R timing_value⟩

/-- C1 witness: a concrete exact "METHOD:PATH" action route with a registered
static response. -/
theorem C1_exact_route_fast_path_witness :
    (handler
      { routes := [("GET:/hello", { rtype := "action", value := Json.str "A" })],
        dynamic_routes := [],
        fast_paths := [("A", { body := "hi", content_type := "text/plain",
                               status := 200, extra_headers := [] })],
        precomputed := [], production_mode := true }
      "GET" "/hello" (.error "worker untouched") "tv").body = "hi" :=
  (C1_exact_route_fast_path
    { routes := [("GET:/hello", { rtype := "action", value := Json.str "A" })],
      dynamic_routes := [],
      fast_paths := [("A", { body := "hi", content_type := "text/plain",
                             status := 200, extra_headers := [] })],
      precomputed := [], production_mode := true }
    "GET" "/hello" (.error "worker untouched") "tv"
    { rtype := "action", value := Json.str "A" }
    { body := "hi", content_type := "text/plain", status := 200, extra_headers := [] }
    rfl rfl rfl).1

/-- C1 counterexample: the same registered static response is NOT served when
the request reaches action A through a dynamic pattern route: the dispatcher
sends the request to the worker pool and serializes the worker result (here a
plain JSON object), so the body differs from R.body = "SECRET" and the claim
fails for dynamic resolution. -/
theorem C1_counterexample_dynamic_route_bypasses_static :
    (handler
      { routes := [],
        dynamic_routes := [{ method := "GET", pattern := "/users/:id", action := "A" }],
        fast_paths := [("A", { body := "SECRET", content_type := "text/plain",
                               status := 200, extra_headers := [] })],
        precomputed := [], production_mode := true }
      "GET" "/users/5" (.ok (Json.obj [("message", Json.str "hi")], [])) "" =
      { status := 200, headers := [("content-type", "application/json")],
        body := "\x7b\x22message\x22:\x22hi\x22\x7d" }) ∧
    ("\x7b\x22message\x22:\x22hi\x22\x7d" : String) ≠ "SECRET" :=
  ⟨rfl, by decide⟩

/-! ## C9: error results and HTTP 500 -/

/-- C9 (amended): a worker result whose JSON carries a top-level error key is
answered with HTTP 500 and that JSON as the body; an uncaught exception whose
message does not contain the substring "SUSPEND" is surfaced by the worker as
the error result {"error": message} (an exception message containing
"SUSPEND" is treated as the suspension sentinel instead). -/
theorem C9_error_result_500 :
    (∀ (production : Bool) (tv : String) (result : Json)
        (timings : List (String × ℚ)) (e : Json),
      result.get "error" = some e →
      build_worker_response production tv result timings =
        { status := 500, headers := [("content-type", "application/json")],
          body := jserialize result }) ∧
    (∀ (fuel : Nat) (rt : TitanRuntime) (request_id : Nat) (name : String)
        (data : RequestData) (beh : ActionBehavior) (msg : String),
      alist_get rt.actions name = some beh →
      beh data [] = .throwErr msg →
      contains_substr msg "SUSPEND" = false →
      request_id ∈ rt.pending_requests →
      execute_action_optimized (fuel + 1) rt request_id name data =
        ({ rt with pending_requests := rt.pending_requests.filter (· ≠ request_id) },
         [.actionError request_id msg])) := by
  constructor
  · intro production tv result timings e he
    unfold build_worker_response
    rw [if_pos (by simp [he])]
  · intro fuel rt request_id name data beh msg hact hstep hsusp hpend
    unfold execute_action_optimized
    rw [hact]
    simp [run_action_loop, hstep, hsusp, hpend]

/-- C9 witness: a concrete error result through the 500 rule. -/
theorem C9_error_result_500_witness :
    build_worker_response true "" (Json.obj [("error", Json.str "boom")]) [] =
      { status := 500, headers := [("content-type", "application/json")],
        body := "\x7b\x22error\x22:\x22boom\x22\x7d" } :=
  C9_error_result_500.1 true "" (Json.obj [("error", Json.str "boom")]) []
    (Json.str "boom") rfl

/-- C9 counterexample: an uncaught exception that is NOT the suspend sentinel
but whose message contains "SUSPEND" is recognized as a suspension by the
substring check: no error is surfaced (no actionError event, no result sent)
and the request stays pending, against the claim's parenthetical. -/
theorem C9_counterexample_nonsentinel_suspend_substring :
    (let run := handle_new_request 5
      { action_name := "a", body := none, method := "GET", path := "/",
        headers := [], params := [], query := [] }
      { actions := [("a", fun _ _ => .throwErr "NOT__SUSPEND__REALLY")],
        pending_requests := [], drift_counter := 0, request_counter := 0,
        request_timings := [], drift_to_request := [], completed_drifts := [],
        active_requests := [], request_start_counters := [] }
    run.2 = [.newRequest 1] ∧ run.1.pending_requests = [1]) :=
  ⟨rfl, rfl⟩


/-! ## Worker-runtime lemmas (C2, C3) -/

/-- Looking up a freshly inserted key. -/
theorem nlist_get_insert {α : Type} (m : List (Nat × α)) (k : Nat) (v : α) :
    nlist_get (nlist_insert m k v) k = some v := by
  induction m with
  | nil => simp [nlist_insert, nlist_get]
  | cons kv rest ih =>
      by_cases hk : kv.1 = k
      · simp [nlist_insert, nlist_get, hk]
      · simp [nlist_insert, nlist_get, hk, ih]

/-- drift_alloc leaves everything but drift_counter and drift_to_request
unchanged and increments drift_counter by one. -/
theorem drift_alloc_fields (req_id : Nat) (rt : TitanRuntime) :
    (drift_alloc req_id rt).completed_drifts = rt.completed_drifts ∧
    (drift_alloc req_id rt).request_counter = rt.request_counter ∧
    (drift_alloc req_id rt).actions = rt.actions ∧
    (drift_alloc req_id rt).drift_counter = rt.drift_counter + 1 ∧
    (drift_alloc req_id rt).pending_requests = rt.pending_requests ∧
    (drift_alloc req_id rt).active_requests = rt.active_requests ∧
    (drift_alloc req_id rt).request_start_counters = rt.request_start_counters ∧
    (drift_alloc req_id rt).request_timings = rt.request_timings := by
  unfold drift_alloc
  split <;> exact ⟨rfl, rfl, rfl, rfl, rfl, rfl, rfl, rfl⟩

/-- One action invocation never touches completed_drifts, request_counter, or
the action table, and never decreases drift_counter. -/
theorem run_action_loop_invariants (beh : List Json → ActionStep) (req_id : Nat) :
    ∀ (fuel : Nat) (obs : List Json) (rt : TitanRuntime),
      (run_action_loop beh req_id fuel obs rt).1.completed_drifts = rt.completed_drifts ∧
      (run_action_loop beh req_id fuel obs rt).1.request_counter = rt.request_counter ∧
      (run_action_loop beh req_id fuel obs rt).1.actions = rt.actions ∧
      rt.drift_counter ≤ (run_action_loop beh req_id fuel obs rt).1.drift_counter := by
  intro fuel
  induction fuel with
  | zero => intro obs rt; exact ⟨rfl, rfl, rfl, le_refl _⟩
  | succ n ih =>
      intro obs rt
      cases hstep : beh obs with
      | finish result =>
          simp only [run_action_loop, hstep, native_finish_request]
          by_cases hp : req_id ∈ rt.pending_requests <;> simp [hp]
      | throwErr msg =>
          simp [run_action_loop, hstep]
      | drift op =>
          simp only [run_action_loop, hstep]
          obtain ⟨ha1, ha2, ha3, ha4, -⟩ := drift_alloc_fields req_id rt
          cases hc : nlist_get (drift_alloc req_id rt).completed_drifts
              (drift_alloc req_id rt).drift_counter with
          | none =>
              refine ⟨ha1, ha2, ha3, ?_⟩
              show rt.drift_counter ≤ (drift_alloc req_id rt).drift_counter
              omega
          | some res =>
              obtain ⟨i1, i2, i3, i4⟩ := ih (obs ++ [res]) (drift_alloc req_id rt)
              refine ⟨?_, ?_, ?_, ?_⟩
              · show (run_action_loop beh req_id n (obs ++ [res])
                    (drift_alloc req_id rt)).1.completed_drifts = rt.completed_drifts
                rw [i1, ha1]
              · show (run_action_loop beh req_id n (obs ++ [res])
                    (drift_alloc req_id rt)).1.request_counter = rt.request_counter
                rw [i2, ha2]
              · show (run_action_loop beh req_id n (obs ++ [res])
                    (drift_alloc req_id rt)).1.actions = rt.actions
                rw [i3, ha3]
              · show rt.drift_counter ≤ (run_action_loop beh req_id n (obs ++ [res])
                    (drift_alloc req_id rt)).1.drift_counter
                omega


/-- Trace events of one action invocation: enqueues happen only for drift ids
absent from completed_drifts and always carry the invocation's request id;
cache hits return exactly the stored result; no newRequest or replayStart
events are emitted. -/
theorem run_action_loop_events (beh : List Json → ActionStep) (req_id : Nat) :
    ∀ (fuel : Nat) (obs : List Json) (rt : TitanRuntime) (ev : WorkerEvent),
      ev ∈ (run_action_loop beh req_id fuel obs rt).2.1 →
      (∀ id rq op, ev = .driftEnqueued id rq op →
          nlist_get rt.completed_drifts id = none ∧ rq = req_id) ∧
      (∀ id r, ev = .driftCached id r → nlist_get rt.completed_drifts id = some r) ∧
      (∀ id, ev ≠ .newRequest id) ∧
      (∀ rq c, ev ≠ .replayStart rq c) := by
  intro fuel
  induction fuel with
  | zero => intro obs rt ev hev; simp [run_action_loop] at hev
  | succ n ih =>
      intro obs rt ev hev
      cases hstep : beh obs with
      | finish result =>
          simp only [run_action_loop, hstep, native_finish_request] at hev
          by_cases hp : req_id ∈ rt.pending_requests
          · simp only [hp, if_true, ite_true] at hev
            simp at hev
            subst hev
            refine ⟨?_, ?_, ?_, ?_⟩
            · intro id rq op heq; exact WorkerEvent.noConfusion heq
            · intro id r heq; exact WorkerEvent.noConfusion heq
            · intro id heq; exact WorkerEvent.noConfusion heq
            · intro rq c heq; exact WorkerEvent.noConfusion heq
          · simp [hp] at hev
      | throwErr msg =>
          simp [run_action_loop, hstep] at hev
      | drift op =>
          simp only [run_action_loop, hstep] at hev
          obtain ⟨ha1, -, -, -, -⟩ := drift_alloc_fields req_id rt
          cases hc : nlist_get (drift_alloc req_id rt).completed_drifts
              (drift_alloc req_id rt).drift_counter with
          | none =>
              simp only [hc] at hev
              simp at hev
              subst hev
              refine ⟨?_, ?_, ?_, ?_⟩
              · intro id rq op2 heq
                cases heq
                exact ⟨ha1 ▸ hc, rfl⟩
              · intro id r heq; exact WorkerEvent.noConfusion heq
              · intro id heq; exact WorkerEvent.noConfusion heq
              · intro rq c heq; exact WorkerEvent.noConfusion heq
          | some res =>
              simp only [hc] at hev
              simp only [List.mem_cons] at hev
              cases hev with
              | inl hev =>
                  subst hev
                  refine ⟨?_, ?_, ?_, ?_⟩
                  · intro id rq op2 heq; exact WorkerEvent.noConfusion heq
                  · intro id r heq
                    cases heq
                    exact ha1 ▸ hc
                  · intro id heq; exact WorkerEvent.noConfusion heq
                  · intro rq c heq; exact WorkerEvent.noConfusion heq
              | inr hev =>
                  obtain ⟨e1, e2, e3, e4⟩ := ih (obs ++ [res]) (drift_alloc req_id rt) ev hev
                  refine ⟨?_, ?_, e3, e4⟩
                  · intro id rq op2 heq
                    obtain ⟨hl, hr⟩ := e1 id rq op2 heq
                    exact ⟨ha1 ▸ hl, hr⟩
                  · intro id r heq
                    exact ha1 ▸ e2 id r heq


/-- execute_action_optimized never touches completed_drifts, request_counter,
or the action table, and never decreases drift_counter. -/
theorem execute_action_invariants (fuel : Nat) (rt : TitanRuntime) (request_id : Nat)
    (name : String) (data : RequestData) :
    (execute_action_optimized fuel rt request_id name data).1.completed_drifts =
      rt.completed_drifts ∧
    (execute_action_optimized fuel rt request_id name data).1.request_counter =
      rt.request_counter ∧
    (execute_action_optimized fuel rt request_id name data).1.actions = rt.actions ∧
    rt.drift_counter ≤ (execute_action_optimized fuel rt request_id name data).1.drift_counter := by
  simp only [execute_action_optimized]
  split
  next beh halist =>
      obtain ⟨i1, i2, i3, i4⟩ := run_action_loop_invariants (beh data) request_id fuel [] rt
      split
      · exact ⟨i1, i2, i3, i4⟩
      · exact ⟨i1, i2, i3, i4⟩
      · split
        · exact ⟨i1, i2, i3, i4⟩
        · split
          · exact ⟨i1, i2, i3, i4⟩
          · exact ⟨i1, i2, i3, i4⟩
  next halist =>
      split <;> simp

/-- Trace events of execute_action_optimized: like run_action_loop, with a
possible trailing actionError (which is none of the scanned shapes). -/
theorem execute_action_events (fuel : Nat) (rt : TitanRuntime) (request_id : Nat)
    (name : String) (data : RequestData) (ev : WorkerEvent) :
    ev ∈ (execute_action_optimized fuel rt request_id name data).2 →
    (∀ id rq op, ev = .driftEnqueued id rq op →
        nlist_get rt.completed_drifts id = none ∧ rq = request_id) ∧
    (∀ id r, ev = .driftCached id r → nlist_get rt.completed_drifts id = some r) ∧
    (∀ id, ev ≠ .newRequest id) ∧
    (∀ rq c, ev ≠ .replayStart rq c) := by
  intro hev
  unfold execute_action_optimized at hev
  have herr : ∀ rq msg, ev = WorkerEvent.actionError rq msg →
      (∀ id rq2 op, ev = .driftEnqueued id rq2 op →
          nlist_get rt.completed_drifts id = none ∧ rq2 = request_id) ∧
      (∀ id r, ev = .driftCached id r → nlist_get rt.completed_drifts id = some r) ∧
      (∀ id, ev ≠ .newRequest id) ∧
      (∀ rq2 c, ev ≠ .replayStart rq2 c) := by
    intro rq msg hevq
    subst hevq
    refine ⟨?_, ?_, ?_, ?_⟩
    · intro id rq2 op heq; exact WorkerEvent.noConfusion heq
    · intro id r heq; exact WorkerEvent.noConfusion heq
    · intro id heq; exact WorkerEvent.noConfusion heq
    · intro rq2 c heq; exact WorkerEvent.noConfusion heq
  cases halist : alist_get rt.actions name with
  | none =>
      simp only [halist] at hev
      by_cases hp : request_id ∈ rt.pending_requests
      · simp only [hp, if_true, ite_true] at hev
        simp at hev
        exact herr _ _ hev
      · simp only [hp, if_false, ite_false] at hev
        simp at hev
  | some beh =>
      simp only [halist] at hev
      cases hout : (run_action_loop (beh data) request_id fuel [] rt).2.2 with
      | returned =>
          simp only [hout] at hev
          exact run_action_loop_events (beh data) request_id fuel [] rt ev hev
      | outOfFuel =>
          simp only [hout] at hev
          exact run_action_loop_events (beh data) request_id fuel [] rt ev hev
      | threw msg =>
          simp only [hout] at hev
          by_cases hs : contains_substr msg "SUSPEND"
          · simp only [hs, if_true, ite_true] at hev
            exact run_action_loop_events (beh data) request_id fuel [] rt ev hev
          · simp only [hs, Bool.false_eq_true, if_false, ite_false] at hev
            by_cases hp : request_id ∈
                (run_action_loop (beh data) request_id fuel [] rt).1.pending_requests
            · simp only [hp, if_true, ite_true] at hev
              rw [List.mem_append] at hev
              cases hev with
              | inl hev =>
                  exact run_action_loop_events (beh data) request_id fuel [] rt ev hev
              | inr hev =>
                  simp at hev
                  exact herr _ _ hev
            · simp only [hp, if_false, ite_false] at hev
              exact run_action_loop_events (beh data) request_id fuel [] rt ev hev

/-- Traces with no newRequest events record no new request ids. -/
theorem new_request_ids_eq_nil (evs : List WorkerEvent)
    (h : ∀ ev ∈ evs, ∀ id, ev ≠ WorkerEvent.newRequest id) :
    new_request_ids evs = [] := by
  induction evs with
  | nil => rfl
  | cons e rest ih =>
      have hrest : ∀ ev ∈ rest, ∀ id, ev ≠ WorkerEvent.newRequest id :=
        fun ev hm => h ev (by simp [hm])
      cases e with
      | newRequest id => exact absurd rfl (h _ (by simp) id)
      | replayStart rq c => simpa [new_request_ids, List.filterMap_cons] using ih hrest
      | driftCached id r => simpa [new_request_ids, List.filterMap_cons] using ih hrest
      | driftEnqueued id rq op => simpa [new_request_ids, List.filterMap_cons] using ih hrest
      | suspended id => simpa [new_request_ids, List.filterMap_cons] using ih hrest
      | finished id r => simpa [new_request_ids, List.filterMap_cons] using ih hrest
      | actionError id msg => simpa [new_request_ids, List.filterMap_cons] using ih hrest


/-- handle_new_request allocates exactly the next request id, increments
request_counter by one, and leaves the action table alone. -/
theorem handle_new_request_state (fuel : Nat) (task : RequestTask) (rt : TitanRuntime) :
    (handle_new_request fuel task rt).1.request_counter = rt.request_counter + 1 ∧
    (handle_new_request fuel task rt).1.actions = rt.actions ∧
    new_request_ids (handle_new_request fuel task rt).2 = [rt.request_counter + 1] := by
  simp only [handle_new_request]
  obtain ⟨e1, e2, e3, -⟩ := execute_action_invariants fuel
    { rt with
      request_counter := rt.request_counter + 1,
      pending_requests := (rt.request_counter + 1) :: rt.pending_requests,
      request_start_counters :=
        nlist_insert rt.request_start_counters (rt.request_counter + 1) rt.drift_counter }
    (rt.request_counter + 1) task.action_name task.data
  have hids : new_request_ids (execute_action_optimized fuel
      { rt with
        request_counter := rt.request_counter + 1,
        pending_requests := (rt.request_counter + 1) :: rt.pending_requests,
        request_start_counters :=
          nlist_insert rt.request_start_counters (rt.request_counter + 1) rt.drift_counter }
      (rt.request_counter + 1) task.action_name task.data).2 = [] := by
    apply new_request_ids_eq_nil
    intro ev hev id
    exact (execute_action_events fuel _ _ _ _ ev hev).2.2.1 id
  refine ⟨?_, ?_, ?_⟩
  · split
    · exact e2
    · exact e2
  · split
    · exact e3
    · exact e3
  · simp [new_request_ids, List.filterMap_cons] at hids ⊢
    exact hids

/-- Rewrite form of the request_counter invariant of execute_action_optimized. -/
theorem execute_action_request_counter_eq (fuel : Nat) (rt : TitanRuntime)
    (request_id : Nat) (name : String) (data : RequestData) :
    (execute_action_optimized fuel rt request_id name data).1.request_counter =
      rt.request_counter :=
  (execute_action_invariants fuel rt request_id name data).2.1

/-- Rewrite form of the actions invariant of execute_action_optimized. -/
theorem execute_action_actions_eq (fuel : Nat) (rt : TitanRuntime)
    (request_id : Nat) (name : String) (data : RequestData) :
    (execute_action_optimized fuel rt request_id name data).1.actions = rt.actions :=
  (execute_action_invariants fuel rt request_id name data).2.2.1

/-- Rewrite form of the completed_drifts invariant of execute_action_optimized. -/
theorem execute_action_completed_eq (fuel : Nat) (rt : TitanRuntime)
    (request_id : Nat) (name : String) (data : RequestData) :
    (execute_action_optimized fuel rt request_id name data).1.completed_drifts =
      rt.completed_drifts :=
  (execute_action_invariants fuel rt request_id name data).1

/-- handle_resume preserves request_counter and the action table and records
no new request ids. -/
theorem handle_resume_state (fuel : Nat) (drift_id : Nat) (result : Json)
    (duration : ℚ) (rt : TitanRuntime) :
    (handle_resume fuel drift_id result duration rt).1.request_counter = rt.request_counter ∧
    (handle_resume fuel drift_id result duration rt).1.actions = rt.actions ∧
    new_request_ids (handle_resume fuel drift_id result duration rt).2 = [] := by
  cases hact : nlist_get rt.active_requests ((nlist_get rt.drift_to_request drift_id).getD 0) with
  | some req_data =>
      refine ⟨?_, ?_, ?_⟩
      · simp only [handle_resume, hact]
        split <;> split <;> simp [execute_action_request_counter_eq]
      · simp only [handle_resume, hact]
        split <;> split <;> simp [execute_action_actions_eq]
      · simp only [handle_resume, hact, new_request_ids, List.filterMap_cons]
        exact new_request_ids_eq_nil _
          (fun ev hev id => (execute_action_events _ _ _ _ _ ev hev).2.2.1 id)
  | none =>
      refine ⟨?_, ?_, ?_⟩
      · simp only [handle_resume, hact]
        split <;> split <;> rfl
      · simp only [handle_resume, hact]
        split <;> split <;> rfl
      · simp [handle_resume, hact, new_request_ids]


/-- request_counter never decreases across a worker's whole command stream. -/
theorem run_worker_request_counter_mono (fuel : Nat) :
    ∀ (cmds : List WorkerCommand) (rt : TitanRuntime),
      rt.request_counter ≤ (run_worker fuel cmds rt).1.request_counter := by
  intro cmds
  induction cmds with
  | nil => intro rt; exact le_refl _
  | cons cmd rest ih =>
      intro rt
      cases cmd with
      | request task =>
          simp only [run_worker]
          have h1 := (handle_new_request_state fuel task rt).1
          have h2 := ih (handle_new_request fuel task rt).1
          omega
      | resume drift_id result duration =>
          simp only [run_worker]
          have h1 := (handle_resume_state fuel drift_id result duration rt).1
          have h2 := ih (handle_resume fuel drift_id result duration rt).1
          omega

/-- Every allocated request id is strictly above the initial counter, and the
allocated ids are strictly increasing along the trace. -/
theorem run_worker_alloc_ids (fuel : Nat) :
    ∀ (cmds : List WorkerCommand) (rt : TitanRuntime),
      (∀ i ∈ new_request_ids (run_worker fuel cmds rt).2, rt.request_counter < i) ∧
      (new_request_ids (run_worker fuel cmds rt).2).Pairwise (· < ·) := by
  intro cmds
  induction cmds with
  | nil => intro rt; simp [run_worker, new_request_ids]
  | cons cmd rest ih =>
      intro rt
      cases cmd with
      | request task =>
          simp only [run_worker]
          have hids := (handle_new_request_state fuel task rt).2.2
          have hrc := (handle_new_request_state fuel task rt).1
          obtain ⟨ihb, ihp⟩ := ih (handle_new_request fuel task rt).1
          rw [hrc] at ihb
          have happ : new_request_ids ((handle_new_request fuel task rt).2 ++
              (run_worker fuel rest (handle_new_request fuel task rt).1).2) =
              new_request_ids (handle_new_request fuel task rt).2 ++
              new_request_ids (run_worker fuel rest (handle_new_request fuel task rt).1).2 := by
            simp [new_request_ids, List.filterMap_append]
          rw [happ, hids]
          constructor
          · intro i hi
            simp only [List.cons_append, List.nil_append, List.mem_cons] at hi
            cases hi with
            | inl h => omega
            | inr h => have := ihb i h; omega
          · simp only [List.cons_append, List.nil_append]
            refine List.Pairwise.cons ?_ ihp
            intro i hi
            have := ihb i hi
            omega
      | resume drift_id result duration =>
          simp only [run_worker]
          have hids := (handle_resume_state fuel drift_id result duration rt).2.2
          have hrc := (handle_resume_state fuel drift_id result duration rt).1
          obtain ⟨ihb, ihp⟩ := ih (handle_resume fuel drift_id result duration rt).1
          rw [hrc] at ihb
          have happ : new_request_ids ((handle_resume fuel drift_id result duration rt).2 ++
              (run_worker fuel rest (handle_resume fuel drift_id result duration rt).1).2) =
              new_request_ids (handle_resume fuel drift_id result duration rt).2 ++
              new_request_ids (run_worker fuel rest
                (handle_resume fuel drift_id result duration rt).1).2 := by
            simp [new_request_ids, List.filterMap_append]
          rw [happ, hids, List.nil_append]
          exact ⟨ihb, ihp⟩

/-- C3 (amended): on each worker, request_counter is monotonic non-decreasing
over the whole command stream and every request id it hands out is fresh (the
allocated ids are pairwise distinct); drift_counter is monotonic non-decreasing
WITHIN each single action execution, but it is reset on resume so drift ids
are re-allocated on replay — and, as the counterexample shows, a drift id can
be handed to drift operations of two distinct interleaved requests. -/
theorem C3_request_counter_monotone_fresh :
    (∀ (fuel : Nat) (cmds : List WorkerCommand) (rt : TitanRuntime),
      rt.request_counter ≤ (run_worker fuel cmds rt).1.request_counter) ∧
    (∀ (fuel : Nat) (cmds : List WorkerCommand) (rt : TitanRuntime),
      (new_request_ids (run_worker fuel cmds rt).2).Pairwise (· ≠ ·)) ∧
    (∀ (fuel : Nat) (rt : TitanRuntime) (request_id : Nat) (name : String)
        (data : RequestData),
      rt.drift_counter ≤ (execute_action_optimized fuel rt request_id name data).1.drift_counter) :=
  ⟨fun fuel cmds rt => run_worker_request_counter_mono fuel cmds rt,
   fun fuel cmds rt => ((run_worker_alloc_ids fuel cmds rt).2).imp (fun h => Nat.ne_of_lt h),
   fun fuel rt request_id name data =>
     (execute_action_invariants fuel rt request_id name data).2.2.2⟩


/-- C2: processing Resume{drift_id, result} inserts result into
completed_drifts and, when it replays, starts from the drift counter saved in
request_start_counters for the request owning the drift; during the replay
every drift call whose freshly allocated id is already in completed_drifts
returns exactly the cached result (driftCached), and an AsyncOpRequest is
enqueued only for ids NOT in completed_drifts — so no completed drift is
re-enqueued and the resumed drift id itself hits the cache. -/
theorem C2_resume_inserts_and_replays_from_cache (fuel : Nat) (drift_id : Nat)
    (result : Json) (duration : ℚ) (rt : TitanRuntime) :
    nlist_get (handle_resume fuel drift_id result duration rt).1.completed_drifts drift_id =
      some result ∧
    (∀ rq c, WorkerEvent.replayStart rq c ∈ (handle_resume fuel drift_id result duration rt).2 →
      rq = (nlist_get rt.drift_to_request drift_id).getD 0 ∧
      c = (nlist_get rt.request_start_counters rq).getD 0) ∧
    (∀ id rq op, WorkerEvent.driftEnqueued id rq op ∈
        (handle_resume fuel drift_id result duration rt).2 →
      nlist_get (nlist_insert rt.completed_drifts drift_id result) id = none) ∧
    (∀ id r, WorkerEvent.driftCached id r ∈ (handle_resume fuel drift_id result duration rt).2 →
      nlist_get (nlist_insert rt.completed_drifts drift_id result) id = some r) := by
  cases hact : nlist_get rt.active_requests ((nlist_get rt.drift_to_request drift_id).getD 0) with
  | some req_data =>
      refine ⟨?_, ?_, ?_, ?_⟩
      · simp only [handle_resume, hact]
        split <;> split <;> simp [execute_action_completed_eq, nlist_get_insert]
      · intro rq c hmem
        simp only [handle_resume, hact] at hmem
        rw [List.mem_cons] at hmem
        cases hmem with
        | inl h =>
            injection h with h1 h2
            subst h1
            subst h2
            exact ⟨rfl, rfl⟩
        | inr h =>
            exact absurd rfl ((execute_action_events _ _ _ _ _ _ h).2.2.2 rq c)
      · intro id rq op hmem
        simp only [handle_resume, hact] at hmem
        rw [List.mem_cons] at hmem
        cases hmem with
        | inl h => exact WorkerEvent.noConfusion h
        | inr h => exact ((execute_action_events _ _ _ _ _ _ h).1 id rq op rfl).1
      · intro id r hmem
        simp only [handle_resume, hact] at hmem
        rw [List.mem_cons] at hmem
        cases hmem with
        | inl h => exact WorkerEvent.noConfusion h
        | inr h => exact (execute_action_events _ _ _ _ _ _ h).2.1 id r rfl
  | none =>
      refine ⟨?_, ?_, ?_, ?_⟩
      · simp only [handle_resume, hact]
        split <;> split <;> simp [nlist_get_insert]
      · intro rq c hmem
        simp [handle_resume, hact] at hmem
      · intro id rq op hmem
        simp [handle_resume, hact] at hmem
      · intro id r hmem
        simp [handle_resume, hact] at hmem

/-- C2 witness: a concrete resume whose result lands in completed_drifts. -/
theorem C2_resume_inserts_witness :
    nlist_get (handle_resume 5 1 (Json.str "r") 0
      { actions := [("a", fun _ obs => match obs with
          | [] => ActionStep.drift (.fsRead "f")
          | _ => ActionStep.finish Json.null)],
        pending_requests := [1], drift_counter := 1, request_counter := 1,
        request_timings := [], drift_to_request := [(1, 1)], completed_drifts := [],
        active_requests := [(1,
          { action_name := "a", body := none, method := "GET", path := "/",
            headers := [], params := [], query := [] })],
        request_start_counters := [(1, 0)] }).1.completed_drifts 1 = some (Json.str "r") :=
  (C2_resume_inserts_and_replays_from_cache 5 1 (Json.str "r") 0 _).1

/-- C3 counterexample: with actions A (two sequential drifts) and B (one
drift) interleaved on one worker, drift id 2 is first allocated to B's drift
and then, after A's resume replays with the counter reset, to A's second
drift — the same id is enqueued for two different drift operations of two
distinct requests. With A doing a single drift instead, drift_counter is 2
after the two requests and 1 after the resume: it decreased over the
worker's execution. -/
theorem C3_counterexample_drift_id_reused :
    ((run_worker 10
        [.request { action_name := "A", body := none, method := "GET", path := "/a",
                    headers := [], params := [], query := [] },
         .request { action_name := "B", body := none, method := "GET", path := "/b",
                    headers := [], params := [], query := [] },
         .resume 1 (Json.str "ra") 0]
        { actions :=
            [("A", fun _ obs => match obs with
                | [] => ActionStep.drift (.fsRead "a1")
                | [_] => ActionStep.drift (.fsRead "a2")
                | _ => ActionStep.finish Json.null),
             ("B", fun _ obs => match obs with
                | [] => ActionStep.drift (.fsRead "b1")
                | _ => ActionStep.finish Json.null)],
          pending_requests := [], drift_counter := 0, request_counter := 0,
          request_timings := [], drift_to_request := [], completed_drifts := [],
          active_requests := [], request_start_counters := [] }).2 =
      [.newRequest 1, .driftEnqueued 1 1 (.fsRead "a1"),
       .newRequest 2, .driftEnqueued 2 2 (.fsRead "b1"),
       .replayStart 1 0, .driftCached 1 (Json.str "ra"),
       .driftEnqueued 2 1 (.fsRead "a2")]) ∧
    ((run_worker 10
        [.request { action_name := "A", body := none, method := "GET", path := "/a",
                    headers := [], params := [], query := [] },
         .request { action_name := "B", body := none, method := "GET", path := "/b",
                    headers := [], params := [], query := [] }]
        { actions :=
            [("A", fun _ obs => match obs with
                | [] => ActionStep.drift (.fsRead "a1")
                | _ => ActionStep.finish Json.null),
             ("B", fun _ obs => match obs with
                | [] => ActionStep.drift (.fsRead "b1")
                | _ => ActionStep.finish Json.null)],
          pending_requests := [], drift_counter := 0, request_counter := 0,
          request_timings := [], drift_to_request := [], completed_drifts := [],
          active_requests := [], request_start_counters := [] }).1.drift_counter = 2) ∧
    ((run_worker 10
        [.request { action_name := "A", body := none, method := "GET", path := "/a",
                    headers := [], params := [], query := [] },
         .request { action_name := "B", body := none, method := "GET", path := "/b",
                    headers := [], params := [], query := [] },
         .resume 1 (Json.str "ra") 0]
        { actions :=
            [("A", fun _ obs => match obs with
                | [] => ActionStep.drift (.fsRead "a1")
                | _ => ActionStep.finish Json.null),
             ("B", fun _ obs => match obs with
                | [] => ActionStep.drift (.fsRead "b1")
                | _ => ActionStep.finish Json.null)],
          pending_requests := [], drift_counter := 0, request_counter := 0,
          request_timings := [], drift_to_request := [], completed_drifts := [],
          active_requests := [], request_start_counters := [] }).1.drift_counter = 1) :=
  ⟨rfl, rfl, rfl⟩

end Titan
